import Mathlib

set_option maxRecDepth 10000

/-!
# OkayDokki task orchestration core — verification development

Shallow embedding of the OkayDokki task orchestration engine
(`src/stateMachine.ts`, `src/repositories/taskRepository.ts`,
`src/services/taskService.ts`, `src/services/taskRunner.ts`,
`src/services/diffPolicy.ts` / `chatService.ts` diff-policy section,
`src/services/dockerSandbox.ts`, `src/services/repoRuntime.ts`,
`src/services/auditLogger.ts`, `src/adapters/agent/cliAgentAdapter.ts`),
together with theorems about the task lifecycle, single-flight approval,
diff policy evaluation, runner error classification and audit validation.

Conventions of the embedding:
* machine integers of the source are `Nat` (all counters involved are
  non-negative byte/line counts and exit codes);
* fallible TypeScript code (functions that `throw`) returns `Except`;
* the SQLite `tasks` table (primary key `task_id`) is a key-value map
  `String → Option TaskSpec`;
* filesystem and process effects are passed in explicitly as data
  (`FsState`, collaborator outcomes), so every function is pure.
-/

/-- `TaskStatus` from `src/types.ts`. -/
inductive TaskStatus where
  | CREATED
  | WAIT_CLARIFY
  | WAIT_APPROVE_WRITE
  | RUNNING
  | PR_CREATED
  | COMPLETED
  | FAILED
deriving Repr, DecidableEq, Fintype

/-- String form of a status, as interpolated into error messages. -/
def TaskStatus.label : TaskStatus → String
  | .CREATED => "CREATED"
  | .WAIT_CLARIFY => "WAIT_CLARIFY"
  | .WAIT_APPROVE_WRITE => "WAIT_APPROVE_WRITE"
  | .RUNNING => "RUNNING"
  | .PR_CREATED => "PR_CREATED"
  | .COMPLETED => "COMPLETED"
  | .FAILED => "FAILED"

/-- The `transitions` table of `src/stateMachine.ts`. -/
def transitions : TaskStatus → List TaskStatus
  | .CREATED => [.WAIT_CLARIFY, .WAIT_APPROVE_WRITE, .FAILED]
  | .WAIT_CLARIFY => [.WAIT_APPROVE_WRITE, .FAILED]
  | .WAIT_APPROVE_WRITE => [.RUNNING, .FAILED]
  | .RUNNING => [.PR_CREATED, .COMPLETED, .FAILED]
  | .PR_CREATED => [.COMPLETED, .FAILED]
  | .COMPLETED => []
  | .FAILED => []

/-- `canTransition` from `src/stateMachine.ts`. -/
def canTransition (fromStatus toStatus : TaskStatus) : Bool :=
  (transitions fromStatus).contains toStatus

/-- `TaskSpec` from `src/types.ts`.  `source.im` is inlined as `sourceIm`;
the optional fields are `Option`. -/
structure TaskSpec where
  taskId : String
  sourceIm : String
  triggerUser : String
  repo : String
  branch : String
  intent : String
  agent : String
  status : TaskStatus
  createdAt : String
  approvedBy : Option String
  deliveryStrategy : Option String
  baseBranch : Option String
deriving Repr, DecidableEq

/-- The SQLite `tasks` table keyed by its primary key `task_id`
(`sql/schema.sql`). -/
def TaskDb := String → Option TaskSpec

/-- Point update of the task table at one primary key. -/
def TaskDb.set (db : TaskDb) (taskId : String) (t : TaskSpec) : TaskDb :=
  fun k => if k = taskId then some t else db k

/-- `TaskRepository.get`: `SELECT * FROM tasks WHERE task_id = ?`. -/
def TaskRepository.get (db : TaskDb) (taskId : String) : Option TaskSpec :=
  db taskId

/-- `TaskRepository.create`: the `INSERT` persists only the row columns, so
`deliveryStrategy`/`baseBranch` are not stored. -/
def TaskRepository.create (db : TaskDb) (task : TaskSpec) : TaskDb :=
  TaskDb.set db task.taskId { task with deliveryStrategy := none, baseBranch := none }

/-- `TaskRepository.transition` from `src/repositories/taskRepository.ts`:
look up the current row, `assertTransition`, then
`UPDATE tasks SET status = ?, approved_by = COALESCE(?, approved_by)` and
re-read the row.  Errors are the thrown `Error` messages. -/
def TaskRepository.transition (db : TaskDb) (taskId : String)
    (nextStatus : TaskStatus) (approvedBy : Option String) :
    Except String (TaskDb × TaskSpec) :=
  match db taskId with
  | none => .error ("Task not found: " ++ taskId)
  | some current =>
    if canTransition current.status nextStatus then
      let updated : TaskSpec :=
        { current with
          status := nextStatus
          approvedBy := match approvedBy with
            | some a => some a
            | none => current.approvedBy }
      .ok (TaskDb.set db taskId updated, updated)
    else
      .error ("Invalid state transition: " ++ current.status.label ++ " -> " ++ nextStatus.label)

/-- The lifecycle edge relation exactly as the specification draws it in
§4.1 (spec-side definition, to be compared with `canTransition`). -/
def lifecycleEdges : List (TaskStatus × TaskStatus) :=
  [(.CREATED, .WAIT_CLARIFY), (.CREATED, .WAIT_APPROVE_WRITE), (.CREATED, .FAILED),
   (.WAIT_CLARIFY, .WAIT_APPROVE_WRITE), (.WAIT_CLARIFY, .FAILED),
   (.WAIT_APPROVE_WRITE, .RUNNING), (.WAIT_APPROVE_WRITE, .FAILED),
   (.RUNNING, .PR_CREATED), (.RUNNING, .COMPLETED), (.RUNNING, .FAILED),
   (.PR_CREATED, .COMPLETED), (.PR_CREATED, .FAILED)]

/-- Sample fixtures used by closed witness theorems. -/
def sampleTask : TaskSpec :=
  { taskId := "t1", sourceIm := "api", triggerUser := "tg:1", repo := "org/name"
    branch := "agent/1", intent := "test", agent := "codex"
    status := .WAIT_APPROVE_WRITE, createdAt := "2026-01-01T00:00:00Z"
    approvedBy := none, deliveryStrategy := none, baseBranch := none }

def sampleDb : TaskDb :=
  fun k => if k = "t1" then some sampleTask else none

/-- **C1.** The state-machine table admits exactly the §4.1 edges,
`COMPLETED` and `FAILED` are terminal, and every successful
`TaskRepository.transition` moves the task along an admitted edge
(`assertTransition` guards the update), so no skipped or reversed
transition is observable. -/
theorem status_changes_follow_lifecycle_edges :
    (∀ a b, canTransition a b = true ↔ (a, b) ∈ lifecycleEdges) ∧
    (∀ b, canTransition .COMPLETED b = false ∧ canTransition .FAILED b = false) ∧
    (∀ db taskId next appr db' t',
      TaskRepository.transition db taskId next appr = .ok (db', t') →
      ∃ t, TaskRepository.get db taskId = some t ∧
        canTransition t.status next = true ∧ t'.status = next) := by
  refine ⟨by decide, by decide, ?_⟩
  intro db taskId next appr db' t' h
  unfold TaskRepository.transition at h
  unfold TaskRepository.get
  cases hdb : db taskId with
  | none => rw [hdb] at h; exact absurd h (by simp)
  | some current =>
    rw [hdb] at h
    by_cases hc : canTransition current.status next
    · refine ⟨current, rfl, hc, ?_⟩
      simp only [hc, if_pos] at h
      cases h
      rfl
    · simp only [hc] at h
      simp at h

/-- Closed witness for `status_changes_follow_lifecycle_edges`: the
approval edge `WAIT_APPROVE_WRITE → RUNNING` on a concrete database. -/
theorem status_changes_follow_lifecycle_edges_witness :
    ∃ t, TaskRepository.get sampleDb "t1" = some t ∧
      canTransition t.status .RUNNING = true ∧
      ({ sampleTask with status := .RUNNING, approvedBy := some "alice" } : TaskSpec).status = .RUNNING :=
  status_changes_follow_lifecycle_edges.2.2 sampleDb "t1" .RUNNING (some "alice")
    (TaskDb.set sampleDb "t1" { sampleTask with status := .RUNNING, approvedBy := some "alice" })
    { sampleTask with status := .RUNNING, approvedBy := some "alice" } rfl

/-- **C10.** A successful `TaskRepository.transition` changes nothing in the
row but `status` and `approved_by`; `approved_by` follows
`COALESCE(new, old)`: it changes only when an approver is supplied, and a
later transition without an approver keeps the existing value. -/
theorem transition_frames_all_fields_but_status_and_approver :
    ∀ db taskId next appr db' t',
      TaskRepository.transition db taskId next appr = .ok (db', t') →
      ∃ t, TaskRepository.get db taskId = some t ∧
        t'.taskId = t.taskId ∧ t'.sourceIm = t.sourceIm ∧
        t'.triggerUser = t.triggerUser ∧ t'.repo = t.repo ∧
        t'.branch = t.branch ∧ t'.intent = t.intent ∧ t'.agent = t.agent ∧
        t'.createdAt = t.createdAt ∧
        t'.approvedBy = (match appr with | some a => some a | none => t.approvedBy) ∧
        (appr = none → t'.approvedBy = t.approvedBy) ∧
        db' = TaskDb.set db taskId t' := by
  intro db taskId next appr db' t' h
  unfold TaskRepository.transition at h
  unfold TaskRepository.get
  cases hdb : db taskId with
  | none => rw [hdb] at h; exact absurd h (by simp)
  | some current =>
    rw [hdb] at h
    by_cases hc : canTransition current.status next
    · simp only [hc, if_pos] at h
      cases h
      refine ⟨current, rfl, rfl, rfl, rfl, rfl, rfl, rfl, rfl, rfl, rfl, ?_, rfl⟩
      intro ha; cases ha; rfl
    · simp only [hc] at h
      simp at h

/-- Closed witness for
`transition_frames_all_fields_but_status_and_approver`: a transition with
no approver argument on a task already carrying `approvedBy = some x`
keeps `some x`. -/
theorem transition_frames_all_fields_witness :
    ∃ t, TaskRepository.get
        (fun k => if k = "t2" then some { sampleTask with taskId := "t2", status := .RUNNING, approvedBy := some "alice" } else none)
        "t2" = some t ∧
      ({ sampleTask with taskId := "t2", status := .COMPLETED, approvedBy := some "alice" } : TaskSpec).taskId = t.taskId ∧
      ({ sampleTask with taskId := "t2", status := .COMPLETED, approvedBy := some "alice" } : TaskSpec).sourceIm = t.sourceIm ∧
      ({ sampleTask with taskId := "t2", status := .COMPLETED, approvedBy := some "alice" } : TaskSpec).triggerUser = t.triggerUser ∧
      ({ sampleTask with taskId := "t2", status := .COMPLETED, approvedBy := some "alice" } : TaskSpec).repo = t.repo ∧
      ({ sampleTask with taskId := "t2", status := .COMPLETED, approvedBy := some "alice" } : TaskSpec).branch = t.branch ∧
      ({ sampleTask with taskId := "t2", status := .COMPLETED, approvedBy := some "alice" } : TaskSpec).intent = t.intent ∧
      ({ sampleTask with taskId := "t2", status := .COMPLETED, approvedBy := some "alice" } : TaskSpec).agent = t.agent ∧
      ({ sampleTask with taskId := "t2", status := .COMPLETED, approvedBy := some "alice" } : TaskSpec).createdAt = t.createdAt ∧
      ({ sampleTask with taskId := "t2", status := .COMPLETED, approvedBy := some "alice" } : TaskSpec).approvedBy
        = (match (none : Option String) with | some a => some a | none => t.approvedBy) ∧
      ((none : Option String) = none → ({ sampleTask with taskId := "t2", status := .COMPLETED, approvedBy := some "alice" } : TaskSpec).approvedBy = t.approvedBy) ∧
      TaskDb.set
        (fun k => if k = "t2" then some { sampleTask with taskId := "t2", status := .RUNNING, approvedBy := some "alice" } else none)
        "t2" { sampleTask with taskId := "t2", status := .COMPLETED, approvedBy := some "alice" }
      = TaskDb.set
        (fun k => if k = "t2" then some { sampleTask with taskId := "t2", status := .RUNNING, approvedBy := some "alice" } else none)
        "t2" { sampleTask with taskId := "t2", status := .COMPLETED, approvedBy := some "alice" } :=
  transition_frames_all_fields_but_status_and_approver
    (fun k => if k = "t2" then some { sampleTask with taskId := "t2", status := .RUNNING, approvedBy := some "alice" } else none)
    "t2" .COMPLETED none _ _ rfl


/-! ## Diff policy evaluator (`chatService.ts` diff-policy section)

String scanning is carried out on `List Char` with structurally recursive
helpers, so that concrete diffs evaluate inside the kernel. -/

/-- ASCII whitespace as matched by the `\s` class and `trim()` in the
source's regexes (the Unicode space classes never occur in diff output). -/
def isJsWs (c : Char) : Bool :=
  c = ' ' ∨ c = '\t' ∨ c = '\n' ∨ c = '\r' ∨ c = '\x0b' ∨ c = '\x0c'

/-- `String.prototype.trim()`. -/
def jsTrim (s : String) : String :=
  ⟨((s.data.dropWhile isJsWs).reverse.dropWhile isJsWs).reverse⟩

/-- `String.prototype.trimEnd()`. -/
def jsTrimEnd (s : String) : String :=
  ⟨(s.data.reverse.dropWhile isJsWs).reverse⟩

/-- `s.startsWith(pat)`. -/
def strStartsWith (s pat : String) : Bool :=
  pat.data.isPrefixOf s.data

/-- `s.endsWith(pat)`. -/
def strEndsWith (s pat : String) : Bool :=
  pat.data.isSuffixOf s.data

/-- `s.slice(n)` on a code-point basis. -/
def strDrop (s : String) (n : Nat) : String :=
  ⟨s.data.drop n⟩

/-- `String.prototype.split` with a one-character separator. -/
def splitOnChar (sep : Char) : List Char → List (List Char)
  | [] => [[]]
  | c :: rest =>
    match splitOnChar sep rest with
    | [] => [[]]
    | h :: t => if c = sep then [] :: h :: t else (c :: h) :: t

/-- The lines of a diff: `diff.split("\n")`. -/
def linesOf (s : String) : List String :=
  (splitOnChar '\n' s.data).map String.mk

/-- The non-empty pattern `pat` occurs somewhere in the character list
(the anchor-free part of a regex `test`, or `indexOf(...) >= 0`). -/
def hasSubList (pat : List Char) : List Char → Bool
  | [] => pat.isEmpty
  | c :: rest => pat.isPrefixOf (c :: rest) || hasSubList pat rest

/-- The remainder after the first occurrence of `pat`
(`s.slice(s.indexOf(pat) + pat.length)` when present). -/
def afterFirstSub (pat : List Char) : List Char → Option (List Char)
  | [] => if pat.isEmpty then some [] else none
  | c :: rest =>
    if pat.isPrefixOf (c :: rest) then some ((c :: rest).drop pat.length)
    else afterFirstSub pat rest

/-- The UTF-8 byte width of one code point (`Buffer.byteLength` counts
these). -/
def charUtf8Size (c : Char) : Nat :=
  if c.val.toNat < 0x80 then 1
  else if c.val.toNat < 0x800 then 2
  else if c.val.toNat < 0x10000 then 3
  else 4

/-- `Buffer.byteLength(diff, "utf8")`. -/
def byteLength (s : String) : Nat :=
  s.data.foldl (fun n c => n + charUtf8Size c) 0

/-- `DiffPolicyOptions` from the source. -/
structure DiffPolicyOptions where
  blockedPathPrefixes : List String
  maxChangedFiles : Nat
  maxDiffBytes : Nat
  disallowBinaryPatch : Bool
deriving Repr, DecidableEq

/-- `normalizePath`: `pathValue.replace(/^\.?\//, "")`. -/
def normalizePath (pathValue : String) : String :=
  if strStartsWith pathValue "./" then strDrop pathValue 2
  else if strStartsWith pathValue "/" then strDrop pathValue 1
  else pathValue

/-- `line.replace(/^\+\+\+\s+/, "")`: the replacement fires only when
`+++` is followed by at least one whitespace character, and `\s+` is
greedy. -/
def stripPlusHeader (line : String) : String :=
  match line.data with
  | '+' :: '+' :: '+' :: c :: rest =>
    if isJsWs c then ⟨(c :: rest).dropWhile isJsWs⟩ else line
  | _ => line

/-- `extractPathFromPlusLine` from the source. -/
def extractPathFromPlusLine (line : String) : Option String :=
  let token := jsTrim (((splitOnChar '\t' (stripPlusHeader line).data).map String.mk).headD "")
  if token = "" ∨ token = "/dev/null" then none
  else if strStartsWith token "/work/" then some (normalizePath (strDrop token 6))
  else if strStartsWith token "b/" then some (normalizePath (strDrop token 2))
  else none

/-- Characters strictly after the last `\s+and\s+` separator of the list
(the separator chosen by the greedy first group of
`/^Binary files\s+(.+)\s+and\s+(.+)\s+differ$/`); `none` when no such
separator with a non-empty right side exists. -/
def afterLastAndSep : List Char → Option (List Char)
  | [] => none
  | c :: rest =>
    match afterLastAndSep rest with
    | some r => some r
    | none =>
      if isJsWs c then
        match (c :: rest).dropWhile isJsWs with
        | 'a' :: 'n' :: 'd' :: d :: rest2 =>
          if isJsWs d then
            let r := (d :: rest2).dropWhile isJsWs
            if r.isEmpty then none else some r
          else none
        | _ => none
      else none

/-- Group 2 of `/^Binary files\s+(.+)\s+and\s+(.+)\s+differ$/` under
greedy-matching semantics (group 1 maximal, so the separator is the last
`\s+and\s+`; the `\s+` before the final `differ` takes one character so
group 2 is maximal). -/
def binaryFilesRhs (line : String) : Option String :=
  if strStartsWith line "Binary files" then
    match (strDrop line 12).data with
    | c :: rest =>
      if isJsWs c then
        let body := (c :: rest).dropWhile isJsWs
        if ("differ".data).isSuffixOf body then
          match (body.take (body.length - 6)).reverse with
          | w :: core2rev =>
            if isJsWs w then
              match afterLastAndSep core2rev.reverse with
              | some g2 => if g2.isEmpty then none else some ⟨g2⟩
              | none => none
            else none
          | [] => none
        else none
      else none
    | [] => none
  else none

/-- `extractPathFromBinaryLine` from the source. -/
def extractPathFromBinaryLine (line : String) : Option String :=
  match binaryFilesRhs line with
  | none => none
  | some rhsRaw =>
    let rhs : String :=
      ⟨(((jsTrim rhsRaw).data.dropWhile (· = '"')).reverse.dropWhile (· = '"')).reverse⟩
    if rhs = "" then none
    else
      let normalized : String := ⟨rhs.data.map (fun c => if c = '\\' then '/' else c)⟩
      if strStartsWith normalized "/work/" then some (normalizePath (strDrop normalized 6))
      else if strStartsWith normalized "b/" then some (normalizePath (strDrop normalized 2))
      else
        let parts := ((splitOnChar '/' normalized.data).map String.mk).filter (· ≠ "")
        match parts.reverse with
        | a :: b :: _ => some (b ++ "/" ++ a)
        | _ => some normalized

/-- Split at the last `\s+b\/` separator (the one picked by the greedy
first group of `/^diff --git a\/(.+)\s+b\/(.+)$/`): returns the characters
before the separator and after the `b/`. -/
def splitLastBSep : List Char → Option (List Char × List Char)
  | [] => none
  | c :: rest =>
    match splitLastBSep rest with
    | some (pre, post) => some (c :: pre, post)
    | none =>
      if isJsWs c then
        match (c :: rest).dropWhile isJsWs with
        | 'b' :: '/' :: r => if r.isEmpty then none else some ([], r)
        | _ => none
      else none

/-- `/^diff --git a\/(.+)\s+b\/(.+)$/`: both (greedy) groups. -/
def gitHeaderMatch (line : String) : Option (String × String) :=
  if strStartsWith line "diff --git a/" then
    match splitLastBSep (strDrop line 13).data with
    | some (pre, post) => if pre.isEmpty then none else some (⟨pre⟩, ⟨post⟩)
    | none => none
  else none

/-- Insertion into a JS `Set` materialised as an insertion-ordered
duplicate-free list. -/
def addUnique (xs : List String) (x : String) : List String :=
  if x ∈ xs then xs else xs ++ [x]

/-- `extractChangedFiles` from the source (the variant that also reads
`Binary files` lines). -/
def extractChangedFiles (diff : String) : List String :=
  (linesOf diff).foldl
    (fun files rawLine =>
      let line := jsTrim rawLine
      match gitHeaderMatch line with
      | some (g1, g2) =>
        let right := if g2 = "/dev/null" then g1 else g2
        addUnique files (normalizePath right)
      | none =>
        if strStartsWith line "+++ " then
          match extractPathFromPlusLine line with
          | some f => addUnique files f
          | none => files
        else if strStartsWith line "Binary files " then
          match extractPathFromBinaryLine line with
          | some f => addUnique files f
          | none => files
        else files)
    []

/-- `/(GIT binary patch|Binary files .* differ)/m.test(diff)`: the pattern
is unanchored and `.` does not cross line breaks, so it matches iff some
line contains `GIT binary patch`, or contains `Binary files ` followed
later in the same line by ` differ`. -/
def hasBinaryMarker (diff : String) : Bool :=
  (linesOf diff).any (fun l =>
    hasSubList "GIT binary patch".data l.data ||
      match afterFirstSub "Binary files ".data l.data with
      | some suffixOfLine => hasSubList " differ".data suffixOfLine
      | none => false)

/-- `evaluateDiffPolicy` from the source: all four checks evaluated, never
short-circuited, violations accumulated in order. -/
def evaluateDiffPolicy (diff : String) (options : DiffPolicyOptions) : List String :=
  let diffBytes := byteLength diff
  let sizeViolations : List String :=
    if diffBytes > options.maxDiffBytes then
      ["diff size " ++ toString diffBytes ++ " exceeds maxDiffBytes " ++
        toString options.maxDiffBytes]
    else []
  let changedFiles := extractChangedFiles diff
  let countViolations : List String :=
    if changedFiles.length > options.maxChangedFiles then
      ["changed file count " ++ toString changedFiles.length ++
        " exceeds maxChangedFiles " ++ toString options.maxChangedFiles]
    else []
  let blockedViolations : List String :=
    changedFiles.filterMap (fun file =>
      match options.blockedPathPrefixes.find? (fun pfx =>
          strStartsWith (normalizePath file) (normalizePath pfx)) with
      | some pfx => some ("blocked path modified: " ++ file ++ " (prefix: " ++ pfx ++ ")")
      | none => none)
  let binaryViolations : List String :=
    if options.disallowBinaryPatch ∧ hasBinaryMarker diff then
      let binaryFiles := (linesOf diff).filterMap (fun l =>
        let line := jsTrim l
        if strStartsWith line "Binary files " then extractPathFromBinaryLine line else none)
      let sample := binaryFiles.take 3
      if sample.length > 0 then
        ["binary patch content is not allowed (files: " ++ String.intercalate ", " sample ++ ")"]
      else ["binary patch content is not allowed"]
    else []
  sizeViolations ++ countViolations ++ blockedViolations ++ binaryViolations

/-- A POSIX `diff -ruN` between a snapshot and a host temporary workspace:
the `+++` path carries the `/tmp/okd-host-…/work/` prefix of the candidate
directory, and the touched file is `secrets/key.txt` relative to the
working root. -/
def posixTempDiff : String :=
  "diff -ruN /tmp/snap/repo/secrets/key.txt /tmp/okd-host-1/work/secrets/key.txt\n--- /tmp/snap/repo/secrets/key.txt\t2026-01-01\n+++ /tmp/okd-host-1/work/secrets/key.txt\t2026-01-01\n@@ -1 +1 @@\n-a\n+b\n"

/-- The policy of the repository's own tests, blocking `secrets/`. -/
def secretPolicy : DiffPolicyOptions :=
  { blockedPathPrefixes := ["secrets/"], maxChangedFiles := 10
    maxDiffBytes := 20000, disallowBinaryPatch := true }

/-- The same logical change in VCS (`diff --git`) dialect. -/
def gitSecretsDiff : String :=
  "diff --git a/secrets/key.txt b/secrets/key.txt\n--- a/secrets/key.txt\n+++ b/secrets/key.txt\n@@ -1 +1 @@\n-a\n+b\n"

/-- The same logical change in POSIX dialect with the container-style
`/work/` prefix that the extractor does strip. -/
def workPosixDiff : String :=
  "diff -ruN /repo/secrets/key.txt /work/secrets/key.txt\n--- /repo/secrets/key.txt\t2026-01-01\n+++ /work/secrets/key.txt\t2026-01-01\n@@ -1 +1 @@\n-a\n+b\n"

/-- **C3 counterexample.** A `diff -ruN` diff that modifies
`secrets/key.txt` — its `+++` path carries the host temporary-directory
prefix `/tmp/okd-host-1/work/` — produces *no* violation at all under a
policy that blocks `secrets/`: `extractPathFromPlusLine` only strips a
literal leading `/work/` or `b/`, so the changed file is never recovered
and the claimed dialect-independence fails. -/
theorem evaluateDiffPolicy_misses_temp_prefixed_plus_path :
    "secrets/" ∈ secretPolicy.blockedPathPrefixes ∧
    hasSubList "secrets/key.txt".data posixTempDiff.data = true ∧
    extractChangedFiles posixTempDiff = [] ∧
    evaluateDiffPolicy posixTempDiff secretPolicy = [] :=
  ⟨by decide, by decide, by decide, by decide⟩

/-- **C3 (amended).** Whenever the extractor recovers a changed file under
`secrets/` — which it does for VCS `diff --git a/... b/...` headers, for
`+++` paths beginning with `b/` or with the literal container prefix
`/work/`, and for `Binary files` lines — `evaluateDiffPolicy` reports a
blocked-path violation naming that file, for every policy whose
`blockedPathPrefixes` contains `"secrets/"`. -/
theorem secrets_diffs_blocked_for_recognized_paths :
    (∀ diff options file, "secrets/" ∈ options.blockedPathPrefixes →
      file ∈ extractChangedFiles diff →
      strStartsWith (normalizePath file) "secrets/" = true →
      ∃ pfx, ("blocked path modified: " ++ file ++ " (prefix: " ++ pfx ++ ")")
          ∈ evaluateDiffPolicy diff options) ∧
    extractChangedFiles gitSecretsDiff = ["secrets/key.txt"] ∧
    extractChangedFiles workPosixDiff = ["secrets/key.txt"] ∧
    evaluateDiffPolicy gitSecretsDiff secretPolicy
      = ["blocked path modified: secrets/key.txt (prefix: secrets/)"] ∧
    evaluateDiffPolicy workPosixDiff secretPolicy
      = ["blocked path modified: secrets/key.txt (prefix: secrets/)"] := by
  refine ⟨?_, by decide, by decide, by decide, by decide⟩
  intro diff options file hmem hfile hpre
  have hfind : (options.blockedPathPrefixes.find? (fun pfx =>
      strStartsWith (normalizePath file) (normalizePath pfx))).isSome := by
    rw [List.find?_isSome]
    refine ⟨"secrets/", hmem, ?_⟩
    have hnorm : normalizePath "secrets/" = "secrets/" := by decide
    rw [hnorm]
    exact hpre
  obtain ⟨pfx, hp⟩ := Option.isSome_iff_exists.mp hfind
  refine ⟨pfx, ?_⟩
  unfold evaluateDiffPolicy
  simp only [List.mem_append]
  refine Or.inl (Or.inr ?_)
  rw [List.mem_filterMap]
  exact ⟨file, hfile, by rw [hp]⟩

/-- Closed witness for `secrets_diffs_blocked_for_recognized_paths`,
instantiated on the VCS-dialect secrets diff. -/
theorem secrets_diffs_blocked_witness :
    ∃ pfx, ("blocked path modified: " ++ "secrets/key.txt" ++ " (prefix: " ++ pfx ++ ")")
        ∈ evaluateDiffPolicy gitSecretsDiff secretPolicy :=
  secrets_diffs_blocked_for_recognized_paths.1 gitSecretsDiff secretPolicy
    "secrets/key.txt" (by decide) (by decide) (by decide)

/-! ## Task runner (`taskRunner.ts`) -/

/-- `path.basename` (POSIX) for the fallback branch of
`normalizePathFromRuDiff`. -/
def pathBasename (p : String) : String :=
  let stripped := (p.data.reverse.dropWhile (· = '/')).reverse
  if stripped.isEmpty then
    if p.data.isEmpty then "" else "/"
  else
    ⟨(stripped.reverse.takeWhile (· ≠ '/')).reverse⟩

/-- Split at the last whitespace character that still leaves a non-empty
right side (the separator picked by the greedy first group of
`/^diff -ruN\s+(.+)\s+(.+)$/`). -/
def lastWsSplit : List Char → Option (List Char × List Char)
  | [] => none
  | c :: rest =>
    match lastWsSplit rest with
    | some (pre, post) => some (c :: pre, post)
    | none => if isJsWs c ∧ ¬ rest.isEmpty then some ([], rest) else none

/-- `/^diff -ruN\s+(.+)\s+(.+)$/`: both (greedy) groups. -/
def ruHeaderMatch (line : String) : Option (String × String) :=
  if strStartsWith line "diff -ruN" then
    match (strDrop line 9).data with
    | c :: rest =>
      if isJsWs c then
        match lastWsSplit ((c :: rest).dropWhile isJsWs) with
        | some (pre, post) => if pre.isEmpty then none else some (⟨pre⟩, ⟨post⟩)
        | none => none
      else none
    | [] => none
  else none

/-- `normalizePathFromRuDiff` from `taskRunner.ts`. -/
def normalizePathFromRuDiff (rawPath : String) : String :=
  let cleaned := jsTrim ⟨((rawPath.data.dropWhile (· = '"')).reverse.dropWhile (· = '"')).reverse⟩
  if cleaned = "" then "unknown-file"
  else
    let normalized : String := ⟨cleaned.data.map (fun c => if c = '\\' then '/' else c)⟩
    match afterFirstSub "/work/".data normalized.data with
    | some rel => if rel.isEmpty then "unknown-file" else ⟨rel⟩
    | none =>
      if strStartsWith normalized "work/" then
        let rel := strDrop normalized 5
        if rel = "" then "unknown-file" else rel
      else
        let parts := ((splitOnChar '/' normalized.data).map String.mk).filter (· ≠ "")
        match parts.reverse with
        | a :: b :: _ => b ++ "/" ++ a
        | _ => pathBasename normalized

/-- Result of `summarizeDiff`. -/
structure DiffSummary where
  changedFiles : List String
  insertions : Nat
  deletions : Nat
deriving Repr, DecidableEq

/-- `summarizeDiff` from `taskRunner.ts` (git-style and `diff -ruN`
headers; `+`/`-` body lines counted, `+++`/`---` headers skipped). -/
def summarizeDiff (diff : String) : DiffSummary :=
  let folded := (linesOf diff).foldl
    (fun (acc : List String × Nat × Nat) rawLine =>
      let (changed, ins, del) := acc
      let line := jsTrimEnd rawLine
      match gitHeaderMatch line with
      | some (_, g2) => (addUnique changed g2, ins, del)
      | none =>
        match ruHeaderMatch line with
        | some (_, g2) => (addUnique changed (normalizePathFromRuDiff g2), ins, del)
        | none =>
          if strStartsWith line "+++ " ∨ strStartsWith line "--- " then acc
          else if strStartsWith line "+" then (changed, ins + 1, del)
          else if strStartsWith line "-" then (changed, ins, del + 1)
          else acc)
    ([], 0, 0)
  { changedFiles := folded.1, insertions := folded.2.1, deletions := folded.2.2 }

/-- `TaskRunnerErrorCode` from `taskRunner.ts`. -/
inductive TaskRunnerErrorCode where
  | SANDBOX_FAILED
  | AGENT_FAILED
  | POLICY_VIOLATION
  | PR_CREATE_FAILED
deriving Repr, DecidableEq

/-- A thrown JavaScript value as seen by `TaskRunner.run`'s caller: either
a `TaskRunnerError` carrying one of the four codes, or an untyped plain
`Error`. -/
inductive RunThrow where
  | runner (code : TaskRunnerErrorCode) (msg : String)
  | plain (msg : String)
deriving Repr, DecidableEq

/-- `HostAgentExecutionResult` (`hostAgentExecutor.ts`), minus the
host-filesystem `cleanup` thunk. -/
structure HostResult where
  diff : String
  agentLogs : List String
  agentMeta : List (String × String)
  candidatePath : String
deriving Repr, DecidableEq

/-- `SandboxExecutionResult` from `dockerSandbox.ts`. -/
structure SandboxExecutionResult where
  testExitCode : Nat
  testLog : String
deriving Repr, DecidableEq

/-- `TaskRunResult` as returned by `TaskRunner.run`. -/
structure TaskRunResult where
  testsResult : String
  testLog : String
  diffHash : String
  hasDiff : Bool
  changedFiles : List String
  insertions : Nat
  deletions : Nat
  agentLogs : List String
  agentMeta : List (String × String)
  prLink : Option String
deriving Repr, DecidableEq

/-- Outcomes of the runner's awaited collaborators for one invocation,
passed in as data: the agent command build (throws untyped on an unknown
template key), the host executor, the sandbox, the PR creator, and the
sha256-hex digest primitive. -/
structure RunnerEnv where
  buildCommand : Except String String
  hostOutcome : Except String HostResult
  sandboxOutcome : Except String SandboxExecutionResult
  prOutcome : Except String (Option String)
  hashHex : String → String

/-- `TaskRunner.run` from `taskRunner.ts`.  `buildCommand` is invoked
before the first `try`, so its exception propagates as a plain error; each
subsequent stage failure is wrapped in a `TaskRunnerError` with the
stage's code; the diff policy runs only when the trimmed diff is
non-empty, and the PR creator only in that same case. -/
def TaskRunner.run (policy : DiffPolicyOptions) (env : RunnerEnv) :
    Except RunThrow TaskRunResult :=
  match env.buildCommand with
  | .error e => .error (.plain e)
  | .ok _ =>
    match env.hostOutcome with
    | .error e => .error (.runner .AGENT_FAILED ("Agent execution failed: " ++ e))
    | .ok hostResult =>
      match env.sandboxOutcome with
      | .error e => .error (.runner .SANDBOX_FAILED ("Sandbox execution failed: " ++ e))
      | .ok sandboxResult =>
        let diffHash := env.hashHex hostResult.diff
        let hasDiff := decide ((jsTrim hostResult.diff).length > 0)
        let diffSummary := summarizeDiff hostResult.diff
        if hasDiff ∧ (evaluateDiffPolicy hostResult.diff policy).length > 0 then
          .error (.runner .POLICY_VIOLATION
            ("Diff policy violation: " ++
              String.intercalate "; " (evaluateDiffPolicy hostResult.diff policy)))
        else
          let testsResult := if sandboxResult.testExitCode = 0 then "PASS" else "FAIL"
          if hasDiff then
            match env.prOutcome with
            | .error e => .error (.runner .PR_CREATE_FAILED ("Draft PR creation failed: " ++ e))
            | .ok link =>
              .ok { testsResult := testsResult, testLog := sandboxResult.testLog
                    diffHash := diffHash, hasDiff := hasDiff
                    changedFiles := diffSummary.changedFiles
                    insertions := diffSummary.insertions, deletions := diffSummary.deletions
                    agentLogs := hostResult.agentLogs, agentMeta := hostResult.agentMeta
                    prLink := link }
          else
            .ok { testsResult := testsResult, testLog := sandboxResult.testLog
                  diffHash := diffHash, hasDiff := hasDiff
                  changedFiles := diffSummary.changedFiles
                  insertions := diffSummary.insertions, deletions := diffSummary.deletions
                  agentLogs := hostResult.agentLogs, agentMeta := hostResult.agentMeta
                  prLink := none }

/-- `shellEscape` from `cliAgentAdapter.ts`: wrap in single quotes,
replacing every embedded single quote by the five characters
quote-doublequote-quote-doublequote-quote. -/
def shellEscape (value : String) : String :=
  "'" ++
    (⟨value.data.foldr
      (fun c acc =>
        if c = '\'' then '\'' :: '"' :: '\'' :: '"' :: '\'' :: acc else c :: acc)
      []⟩ : String) ++ "'"

/-- A character admitted by the template-key class `[a-z_]`. -/
def templateKeyChar (c : Char) : Bool :=
  ('a' ≤ c ∧ c ≤ 'z') ∨ c = '_'

/-- The placeholder map of `CliAgentAdapter.buildCommand`. -/
def lookupTemplateKey (task : TaskSpec) (key : String) : Option String :=
  if key = "task_id" then some task.taskId
  else if key = "intent" then some task.intent
  else if key = "repo" then some task.repo
  else if key = "branch" then some task.branch
  else if key = "trigger_user" then some task.triggerUser
  else none

/-- The global replace `template.replace(/\{\{\s*([a-z_]+)\s*\}\}/g, …)`:
scan left to right; where the pattern matches, an unknown key throws and a
known key substitutes its shell-escaped value; otherwise copy one
character and continue.  The fuel argument (instantiated with the input
length, which every step consumes at least one character of) makes the
recursion structural. -/
def buildCommandAux (task : TaskSpec) : Nat → List Char → Except String (List Char)
  | 0, _ => .ok []
  | _ + 1, [] => .ok []
  | fuel + 1, '{' :: '{' :: rest2 =>
    let afterWs := rest2.dropWhile isJsWs
    let keyChars := afterWs.takeWhile templateKeyChar
    let afterKey := (afterWs.drop keyChars.length).dropWhile isJsWs
    match keyChars, afterKey with
    | _ :: _, '}' :: '}' :: rest3 =>
      match lookupTemplateKey task ⟨keyChars⟩ with
      | some raw => (buildCommandAux task fuel rest3).map (fun r => (shellEscape raw).data ++ r)
      | none => .error ("Unknown template key: " ++ (⟨keyChars⟩ : String))
    | _, _ => (buildCommandAux task fuel ('{' :: rest2)).map (fun r => '{' :: r)
  | fuel + 1, c :: rest => (buildCommandAux task fuel rest).map (fun r => c :: r)

/-- `CliAgentAdapter.buildCommand` from `cliAgentAdapter.ts`. -/
def CliAgentAdapter.buildCommand (template : String) (task : TaskSpec) :
    Except String String :=
  (buildCommandAux task template.data.length template.data).map String.mk

/-- Runner environment in which the agent command template contains an
unknown placeholder key, all other collaborators succeeding. -/
def templateEnv : RunnerEnv :=
  { buildCommand := CliAgentAdapter.buildCommand "run {{x}}" sampleTask
    hostOutcome := .ok { diff := "", agentLogs := [], agentMeta := [], candidatePath := "/tmp/c" }
    sandboxOutcome := .ok { testExitCode := 0, testLog := "ok" }
    prOutcome := .ok (some "https://example.com/pr/1")
    hashHex := fun _ => "h" }

/-- **C4 counterexample.** `CliAgentAdapter.buildCommand` is invoked in
`TaskRunner.run` *before* the first `try`, so the plain `Error` it throws
for an unknown template key escapes `run` untyped: it is not a
`TaskRunnerError` and carries none of the four codes. -/
theorem runner_leaks_untyped_command_construction_error :
    TaskRunner.run secretPolicy templateEnv = .error (.plain "Unknown template key: x") ∧
    ∀ code msg, (Except.error (RunThrow.plain "Unknown template key: x") :
        Except RunThrow TaskRunResult) ≠ .error (.runner code msg) := by
  refine ⟨rfl, ?_⟩
  intro code msg h
  injection h with h1
  exact RunThrow.noConfusion h1

/-- **C4 (amended).** Once the agent command has been built, every failure
`TaskRunner.run` reports — agent execution, sandbox validation, diff
policy, draft-PR delivery — is a `TaskRunnerError` with one of exactly
the four codes; only an error thrown during command construction (before
the first stage's `try`) escapes untyped. -/
theorem runner_errors_typed_once_command_is_built :
    ∀ policy env cmd e, env.buildCommand = .ok cmd →
      TaskRunner.run policy env = .error e →
      ∃ code msg, e = RunThrow.runner code msg ∧
        (code = .AGENT_FAILED ∨ code = .SANDBOX_FAILED ∨
         code = .POLICY_VIOLATION ∨ code = .PR_CREATE_FAILED) := by
  intro policy env cmd e hb hrun
  unfold TaskRunner.run at hrun
  rw [hb] at hrun
  rcases hh : env.hostOutcome with m | hostResult <;> rw [hh] at hrun
  · injection hrun with h1
    exact ⟨_, _, h1.symm, by decide⟩
  · rcases hs : env.sandboxOutcome with m | sb <;> rw [hs] at hrun
    · injection hrun with h1
      exact ⟨_, _, h1.symm, by decide⟩
    · rcases hp : env.prOutcome with m | link <;> rw [hp] at hrun <;>
        simp only [] at hrun <;> split at hrun <;>
        first
          | exact Except.noConfusion hrun
          | (injection hrun with h1; exact ⟨_, _, h1.symm, by decide⟩)
          | (split at hrun <;>
              first
                | exact Except.noConfusion hrun
                | (injection hrun with h1; exact ⟨_, _, h1.symm, by decide⟩))

/-- Runner environment whose host executor (agent stage) fails. -/
def agentFailEnv : RunnerEnv :=
  { buildCommand := .ok "echo run"
    hostOutcome := .error "not logged in"
    sandboxOutcome := .ok { testExitCode := 0, testLog := "ok" }
    prOutcome := .ok (some "https://example.com/pr/1")
    hashHex := fun _ => "h" }

/-- Closed witness for `runner_errors_typed_once_command_is_built` on a
failing agent stage. -/
theorem runner_errors_typed_witness :
    ∃ code msg,
      RunThrow.runner .AGENT_FAILED "Agent execution failed: not logged in"
        = RunThrow.runner code msg ∧
      (code = .AGENT_FAILED ∨ code = .SANDBOX_FAILED ∨
       code = .POLICY_VIOLATION ∨ code = .PR_CREATE_FAILED) :=
  runner_errors_typed_once_command_is_built secretPolicy agentFailEnv "echo run"
    (.runner .AGENT_FAILED "Agent execution failed: not logged in") rfl rfl

/-! ## Repo runtime resolver (`repoRuntime.ts`) -/

/-- A parsed value of the minimal YAML subset: a scalar or a list. -/
inductive YamlValue where
  | str (s : String)
  | list (xs : List String)
deriving Repr, DecidableEq

/-- JS object property assignment (`out[key] = v`) over an
insertion-ordered association list. -/
def setKey (out : List (String × YamlValue)) (k : String) (v : YamlValue) :
    List (String × YamlValue) :=
  if out.any (fun p => p.1 = k) then
    out.map (fun p => if p.1 = k then (k, v) else p)
  else out ++ [(k, v)]

/-- JS object property lookup. -/
def getKey (out : List (String × YamlValue)) (k : String) : Option YamlValue :=
  (out.find? (fun p => p.1 = k)).map (·.2)

/-- `stripQuotes` from `repoRuntime.ts`. -/
def stripQuotes (value : String) : String :=
  let trimmed := jsTrim value
  if (strStartsWith trimmed "\"" ∧ strEndsWith trimmed "\"") ∨
      (strStartsWith trimmed "'" ∧ strEndsWith trimmed "'") then
    ⟨(trimmed.data.drop 1).dropLast⟩
  else trimmed

/-- One line of `parseSimpleYaml`'s loop, with the `(out, listKey)`
state. -/
def parseSimpleYamlStep (state : List (String × YamlValue) × Option String)
    (rawLine : String) : List (String × YamlValue) × Option String :=
  let (out, listKey) := state
  let line := jsTrim rawLine
  if line = "" ∨ strStartsWith line "#" then state
  else
    match listKey, line.data with
    | some lk, '-' :: ' ' :: c :: rest =>
      let base := match getKey out lk with
        | some (.list xs) => xs
        | _ => []
      (setKey out lk (.list (base ++ [stripQuotes ⟨c :: rest⟩])), listKey)
    | _, _ =>
      let pre := line.data.takeWhile (· ≠ ':')
      if pre.length = line.data.length then state
      else
        let key := jsTrim ⟨pre⟩
        let value := jsTrim ⟨line.data.drop (pre.length + 1)⟩
        if key = "" then state
        else if value = "" then (setKey out key (.list []), some key)
        else (setKey out key (.str (stripQuotes value)), none)

/-- `parseSimpleYaml` from `repoRuntime.ts`. -/
def parseSimpleYaml (raw : String) : List (String × YamlValue) :=
  ((linesOf raw).foldl parseSimpleYamlStep ([], none)).1

/-- `asNonEmptyString` from `repoRuntime.ts`. -/
def asNonEmptyString : Option YamlValue → Option String
  | some (.str s) => let t := jsTrim s; if t = "" then none else some t
  | _ => none

/-- `asStringList` from `repoRuntime.ts`. -/
def asStringList : Option YamlValue → List String
  | some (.list xs) => (xs.map jsTrim).filter (· ≠ "")
  | _ => []

/-- The filesystem facts `resolveRepoRuntime` consults for one repo:
whether the snapshot directory exists, whether `okaydokki.yaml` exists
inside it, and that file's contents. -/
structure RepoFs where
  snapshotExists : Bool
  configFileExists : Bool
  configContent : String
deriving Repr, DecidableEq

/-- `RepoRuntimeFallback` from `repoRuntime.ts`. -/
structure RepoRuntimeFallback where
  sandboxImage : String
  testCommand : String
  allowedTestCommands : List String
deriving Repr, DecidableEq

/-- `RepoRuntimeResolution` from `repoRuntime.ts`. -/
structure RepoRuntimeResolution where
  repoPath : String
  configPath : String
  snapshotExists : Bool
  configExists : Bool
  missingFields : List String
  sandboxImage : String
  testCommand : String
  allowedTestCommands : List String
deriving Repr, DecidableEq

/-- `resolveRepoSnapshotPath` (`utils/repoSnapshot.ts`) modulo
`path.resolve` normalisation; the path-traversal guard is outside this
model (no claim exercises it). -/
def resolveRepoSnapshotPath (repoRoot repo : String) : String :=
  repoRoot ++ "/" ++ repo

/-- `resolveRepoRuntime` from `repoRuntime.ts`: a missing config file
contributes the single missing field `okaydokki.yaml`; an existing one is
parsed and each absent/empty field is reported missing, present fields
overriding the fallback. -/
def resolveRepoRuntime (repoRoot repo : String) (fs : RepoFs)
    (fallback : RepoRuntimeFallback) : RepoRuntimeResolution :=
  let repoPath := resolveRepoSnapshotPath repoRoot repo
  let configPath := repoPath ++ "/okaydokki.yaml"
  let configExists := fs.snapshotExists && fs.configFileExists
  if ¬ configExists then
    { repoPath := repoPath, configPath := configPath
      snapshotExists := fs.snapshotExists, configExists := configExists
      missingFields := ["okaydokki.yaml"]
      sandboxImage := fallback.sandboxImage, testCommand := fallback.testCommand
      allowedTestCommands := fallback.allowedTestCommands }
  else
    let parsed := parseSimpleYaml fs.configContent
    let parsedImage := asNonEmptyString (getKey parsed "sandbox_image")
    let parsedCommand := asNonEmptyString (getKey parsed "test_command")
    let parsedAllowed := asStringList (getKey parsed "allowed_test_commands")
    { repoPath := repoPath, configPath := configPath
      snapshotExists := fs.snapshotExists, configExists := configExists
      missingFields :=
        (if parsedImage.isNone then ["sandbox_image"] else []) ++
        (if parsedCommand.isNone then ["test_command"] else []) ++
        (if parsedAllowed.isEmpty then ["allowed_test_commands"] else [])
      sandboxImage := parsedImage.getD fallback.sandboxImage
      testCommand := parsedCommand.getD fallback.testCommand
      allowedTestCommands :=
        if parsedAllowed.isEmpty then fallback.allowedTestCommands else parsedAllowed }

/-! ## Audit logger (`auditLogger.ts`) -/

/-- `EventType` from `src/types.ts` (ten values; only seven are accepted
by the audit validator). -/
inductive EventType where
  | REQUEST
  | RETRY
  | APPROVE
  | REJECT
  | RUN
  | PR_CREATED
  | FAILED
  | CHAT_REQUEST
  | CHAT_RESPONSE
  | CHAT_FAILED
deriving Repr, DecidableEq

/-- `ALLOWED_EVENT_TYPES` from `auditLogger.ts`. -/
def ALLOWED_EVENT_TYPES : List EventType :=
  [.REQUEST, .RETRY, .APPROVE, .REJECT, .RUN, .PR_CREATED, .FAILED]

/-- A JavaScript runtime value for the `agentLogs` entries: the validator
only distinguishes strings from everything else. -/
inductive JsVal where
  | str (s : String)
  | nonString
deriving Repr, DecidableEq

/-- Is this runtime value a string (`typeof x === "string"`)? -/
def JsVal.isStr : JsVal → Bool
  | .str _ => true
  | .nonString => false

/-- A normalised `AuditRecord` (`src/types.ts`), `auditVersion` filled
in. -/
structure AuditRecord where
  auditVersion : String
  timestamp : String
  taskId : String
  triggerUser : String
  eventType : EventType
  errorCode : Option String := none
  diffHash : Option String := none
  agentLogs : Option (List JsVal) := none
  approvalDecision : Option String := none
  testsResult : Option String := none
  prLink : Option String := none
  message : Option String := none
deriving Repr, DecidableEq

/-- `AuditRecordInput`: an `AuditRecord` whose `auditVersion` may be
absent. -/
structure AuditRecordInput where
  auditVersion : Option String := none
  timestamp : String
  taskId : String
  triggerUser : String
  eventType : EventType
  errorCode : Option String := none
  diffHash : Option String := none
  agentLogs : Option (List JsVal) := none
  approvalDecision : Option String := none
  testsResult : Option String := none
  prLink : Option String := none
  message : Option String := none
deriving Repr, DecidableEq

/-- `{ ...record, auditVersion: record.auditVersion ?? AUDIT_VERSION }`. -/
def normalizeAudit (r : AuditRecordInput) : AuditRecord :=
  { auditVersion := r.auditVersion.getD "1.0", timestamp := r.timestamp
    taskId := r.taskId, triggerUser := r.triggerUser, eventType := r.eventType
    errorCode := r.errorCode, diffHash := r.diffHash, agentLogs := r.agentLogs
    approvalDecision := r.approvalDecision, testsResult := r.testsResult
    prLink := r.prLink, message := r.message }

/-- `AuditLogger.validate`.  `dateParseOk` stands for
`!Number.isNaN(Date.parse(·))`, the JS date parser being environment
code. -/
def AuditLogger.validate (dateParseOk : String → Bool) (record : AuditRecord) :
    Except String Unit :=
  if record.auditVersion = "" then .error "auditVersion is required"
  else if record.timestamp = "" ∨ ¬ dateParseOk record.timestamp then
    .error "timestamp must be a valid ISO datetime"
  else if record.taskId = "" then .error "taskId is required"
  else if record.triggerUser = "" then .error "triggerUser is required"
  else if ¬ record.eventType ∈ ALLOWED_EVENT_TYPES then .error "eventType is invalid"
  else
    match record.approvalDecision with
    | some d =>
      if d ≠ "APPROVE" ∧ d ≠ "REJECT" then .error ("approvalDecision is invalid: " ++ d)
      else
        match record.agentLogs with
        | some xs =>
          if ¬ xs.all JsVal.isStr then .error "agentLogs must be an array of strings"
          else .ok ()
        | none => .ok ()
    | none =>
      match record.agentLogs with
      | some xs =>
        if ¬ xs.all JsVal.isStr then .error "agentLogs must be an array of strings"
        else .ok ()
      | none => .ok ()

/-- `AuditLogger.append`: normalise, validate, then append exactly one
record to the sink (one serialized JSON line). -/
def AuditLogger.append (dateParseOk : String → Bool) (record : AuditRecordInput)
    (sink : List AuditRecord) : Except String (List AuditRecord) :=
  let normalized := normalizeAudit record
  match AuditLogger.validate dateParseOk normalized with
  | .error e => .error e
  | .ok _ => .ok (sink ++ [normalized])

/-- The acceptance predicate of the audit validator, spelled out: this is
the claim's list of checks plus the non-empty `auditVersion` condition. -/
def auditRecordAcceptable (dateParseOk : String → Bool) (r : AuditRecordInput) : Bool :=
  r.auditVersion.getD "1.0" ≠ "" &&
  r.timestamp ≠ "" && dateParseOk r.timestamp &&
  r.taskId ≠ "" && r.triggerUser ≠ "" &&
  r.eventType ∈ ALLOWED_EVENT_TYPES &&
  r.approvalDecision.all (fun d => d = "APPROVE" || d = "REJECT") &&
  r.agentLogs.all (fun xs => xs.all JsVal.isStr)

/-- Helper: a record satisfying the acceptance predicate is appended,
exactly once, with the version defaulted. -/
theorem append_ok_of_acceptable (dp : String → Bool) (r : AuditRecordInput)
    (sink : List AuditRecord) (h : auditRecordAcceptable dp r = true) :
    AuditLogger.append dp r sink = .ok (sink ++ [normalizeAudit r]) := by
  unfold auditRecordAcceptable at h
  simp only [Bool.and_eq_true, decide_eq_true_eq, ne_eq] at h
  obtain ⟨⟨⟨⟨⟨⟨⟨h1, h2⟩, h3⟩, h4⟩, h5⟩, h6⟩, h7⟩, h8⟩ := h
  rcases had : r.approvalDecision with _ | d <;> rcases hal : r.agentLogs with _ | xs <;>
    simp_all [AuditLogger.append, AuditLogger.validate, normalizeAudit, Option.all]
  all_goals rcases h7 with rfl | rfl <;> simp_all

/-- Helper: a record failing the acceptance predicate makes `append`
raise (and hence write nothing, the error carrying no sink). -/
theorem audit_error_of_unacceptable (dp : String → Bool) (r : AuditRecordInput)
    (sink : List AuditRecord) (hfalse : auditRecordAcceptable dp r = false) :
    ∃ e, AuditLogger.append dp r sink = .error e := by
  rcases had : r.approvalDecision with _ | d <;> rcases hal : r.agentLogs with _ | xs <;>
    simp only [auditRecordAcceptable, had, hal, Option.all] at hfalse <;>
    unfold AuditLogger.append AuditLogger.validate <;>
    simp only [normalizeAudit, had, hal] <;>
    split_ifs <;>
    first
      | exact ⟨_, rfl⟩
      | (exfalso; simp_all)

/-- An input record whose `auditVersion` is present but empty while every
check the specification lists passes. -/
def emptyVersionRecord : AuditRecordInput :=
  { auditVersion := some "", timestamp := "2026-01-01T00:00:00Z", taskId := "t1"
    triggerUser := "tg:1", eventType := .REQUEST }

/-- **C9 counterexample.** `validate` also rejects a present-but-empty
`auditVersion` — a check the claim does not list: this record passes every
listed check (parseable timestamp, allowed event type, no
approval-decision, no agent logs, non-empty ids) yet `append` throws and
writes nothing. -/
theorem audit_append_rejects_empty_version_string :
    AuditLogger.append (fun _ => true) emptyVersionRecord [] = .error "auditVersion is required" ∧
    emptyVersionRecord.timestamp ≠ "" ∧
    (fun (_ : String) => true) emptyVersionRecord.timestamp = true ∧
    emptyVersionRecord.taskId ≠ "" ∧
    emptyVersionRecord.triggerUser ≠ "" ∧
    emptyVersionRecord.eventType ∈ ALLOWED_EVENT_TYPES ∧
    emptyVersionRecord.approvalDecision = none ∧
    emptyVersionRecord.agentLogs = none := by
  refine ⟨rfl, by decide, rfl, by decide, by decide, by decide, rfl, rfl⟩

/-- **C9 (amended).** `AuditLogger.append` raises synchronously and writes
nothing whenever the (normalised) record has an empty or unparseable
timestamp, an event type outside the seven allowed values, a present
`approvalDecision` other than APPROVE/REJECT, a non-string `agentLogs`
entry, an empty `taskId` or `triggerUser` — or a present-but-empty
`auditVersion`; every record passing these checks is appended exactly
once, with `auditVersion` defaulting to "1.0" when absent. -/
theorem audit_append_validates_then_appends_exactly_one :
    (∀ dp r sink, auditRecordAcceptable dp r = true →
      AuditLogger.append dp r sink = .ok (sink ++ [normalizeAudit r])) ∧
    (∀ dp r sink, auditRecordAcceptable dp r = false →
      ∃ e, AuditLogger.append dp r sink = .error e) ∧
    (∀ r : AuditRecordInput, (normalizeAudit r).auditVersion = r.auditVersion.getD "1.0") :=
  ⟨append_ok_of_acceptable, audit_error_of_unacceptable, fun _ => rfl⟩

/-- Closed witness for `audit_append_validates_then_appends_exactly_one`:
a well-formed REQUEST record is appended once with version "1.0". -/
theorem audit_append_witness :
    AuditLogger.append (fun _ => true)
      { timestamp := "2026-01-01T00:00:00Z", taskId := "t1", triggerUser := "tg:1"
        eventType := .REQUEST }
      []
    = .ok ([] ++ [normalizeAudit
      { timestamp := "2026-01-01T00:00:00Z", taskId := "t1", triggerUser := "tg:1"
        eventType := .REQUEST }]) :=
  audit_append_validates_then_appends_exactly_one.1 (fun _ => true)
    { timestamp := "2026-01-01T00:00:00Z", taskId := "t1", triggerUser := "tg:1"
      eventType := .REQUEST }
    [] (by decide)

/-! ## Task service (`taskService.ts`)

The service is modelled as pure state transformers over `ServiceState`.
Environment effects are parameters: `dp` is the JS date parser,
`RepoFs`/`RepoRuntimeFallback` feed the repo-runtime resolver, `newId`,
`nowMs` and `now` stand for `newTaskId()`, `Date.now()` and
`new Date().toISOString()`, and the awaited runner outcome is passed in
as a value.  A thrown JS value is `ThrownError`; `Except.error` leaves
the returned state exactly as it was at the throw point. -/

/-- The service error-code union of `TaskServiceError`. -/
inductive ServiceErrorCode where
  | VALIDATION_ERROR
  | TASK_NOT_FOUND
  | INVALID_ACTION
  | STATE_CONFLICT
  | SNAPSHOT_MISSING
  | RUNTIME_CONFIG_MISSING
  | TEST_FAILED
  | AGENT_FAILED
  | SANDBOX_FAILED
  | PR_CREATE_FAILED
  | POLICY_VIOLATION
  | RUN_FAILED
deriving Repr, DecidableEq

/-- The audit string form of a service error code. -/
def ServiceErrorCode.label : ServiceErrorCode → String
  | .VALIDATION_ERROR => "VALIDATION_ERROR"
  | .TASK_NOT_FOUND => "TASK_NOT_FOUND"
  | .INVALID_ACTION => "INVALID_ACTION"
  | .STATE_CONFLICT => "STATE_CONFLICT"
  | .SNAPSHOT_MISSING => "SNAPSHOT_MISSING"
  | .RUNTIME_CONFIG_MISSING => "RUNTIME_CONFIG_MISSING"
  | .TEST_FAILED => "TEST_FAILED"
  | .AGENT_FAILED => "AGENT_FAILED"
  | .SANDBOX_FAILED => "SANDBOX_FAILED"
  | .PR_CREATE_FAILED => "PR_CREATE_FAILED"
  | .POLICY_VIOLATION => "POLICY_VIOLATION"
  | .RUN_FAILED => "RUN_FAILED"

/-- `TaskServiceError` (message, HTTP-equivalent status, stable code). -/
structure TaskServiceError where
  message : String
  statusCode : Nat
  code : ServiceErrorCode
deriving Repr, DecidableEq

/-- Any value thrown out of a service method: a `TaskServiceError`, a
`TaskRunnerError`, or an untyped `Error`. -/
inductive ThrownError where
  | svc (e : TaskServiceError)
  | runnerErr (code : TaskRunnerErrorCode) (msg : String)
  | plain (msg : String)
deriving Repr, DecidableEq

/-- The service code a caught runner code maps to. -/
def serviceCodeOfRunner : TaskRunnerErrorCode → ServiceErrorCode
  | .AGENT_FAILED => .AGENT_FAILED
  | .SANDBOX_FAILED => .SANDBOX_FAILED
  | .POLICY_VIOLATION => .POLICY_VIOLATION
  | .PR_CREATE_FAILED => .PR_CREATE_FAILED

/-- `RunStage` of the per-task progress map. -/
inductive RunStage where
  | QUEUED
  | AGENT_RUNNING
  | SANDBOX_TESTING
  | CREATING_PR
  | COMPLETED
  | FAILED
deriving Repr, DecidableEq

/-- In-memory state owned by one `TaskService` instance plus its
persistence: the task table, the single-flight `runningApprovals` set,
the `progressByTask` map, and the audit sink. -/
structure ServiceState where
  tasks : TaskDb
  runningApprovals : List String
  progressByTask : List (String × RunStage)
  auditLog : List AuditRecord

/-- JS `Map.set` over an insertion-ordered association list. -/
def setProgress (m : List (String × RunStage)) (k : String) (v : RunStage) :
    List (String × RunStage) :=
  if m.any (fun p => p.1 = k) then m.map (fun p => if p.1 = k then (k, v) else p)
  else m ++ [(k, v)]

/-- JS `Set.delete`. -/
def removeAll (xs : List String) (x : String) : List String :=
  xs.filter (· ≠ x)

/-- `TaskAction` from `taskService.ts`. -/
inductive TaskAction where
  | retry
  | approve
  | reject
deriving Repr, DecidableEq

/-- `CreateTaskInput` from `taskService.ts`. -/
structure CreateTaskInput where
  sourceIm : String
  triggerUser : String
  repo : String
  intent : String
  agent : Option String := none
  deliveryStrategy : Option String := none
  baseBranch : Option String := none
deriving Repr, DecidableEq

/-- The service's constructor defaults. -/
structure ServiceDefaults where
  deliveryStrategy : String
  baseBranch : String
  agent : Option String := none
deriving Repr, DecidableEq

/-- `CreateTaskResult` from `taskService.ts`. -/
structure CreateTaskResult where
  task : TaskSpec
  needsClarify : Bool
  expectedPath : Option String := none
  runtimeConfigPath : Option String := none
  clarifyReason : Option String := none
  missingFields : Option (List String) := none
deriving Repr, DecidableEq

/-- A simplified `JSON.stringify` for the flat string map `agentMeta`
(`\x7b`/`\x7d` are the literal braces; member strings are not escaped,
which no claim exercises). -/
def jsonOfMeta (m : List (String × String)) : String :=
  "\x7b" ++
    String.intercalate ","
      (m.map (fun p => "\"" ++ p.1 ++ "\":\"" ++ p.2 ++ "\"")) ++
  "\x7d"

/-- `TaskService.createTask`: resolve runtime readiness, insert the task
row, append the `REQUEST` audit record, then report clarify data.  An
audit validation error propagates after the row insert, as in the
source. -/
def TaskService.createTask (st : ServiceState) (fs : RepoFs)
    (fallback : RepoRuntimeFallback) (repoRoot : String)
    (defaults : ServiceDefaults) (dp : String → Bool)
    (input : CreateTaskInput) (newId : String) (nowMs : Nat) (now : String) :
    ServiceState × Except ThrownError CreateTaskResult :=
  let runtime := resolveRepoRuntime repoRoot input.repo fs fallback
  let needsRuntimeClarify := runtime.missingFields.length > 0
  let status : TaskStatus :=
    if runtime.snapshotExists ∧ ¬ needsRuntimeClarify then .WAIT_APPROVE_WRITE
    else .WAIT_CLARIFY
  let task : TaskSpec :=
    { taskId := newId, sourceIm := input.sourceIm, triggerUser := input.triggerUser
      repo := input.repo, branch := "agent/" ++ toString nowMs, intent := input.intent
      agent := input.agent.getD (defaults.agent.getD "codex")
      status := status, createdAt := now, approvedBy := none
      deliveryStrategy := some (input.deliveryStrategy.getD defaults.deliveryStrategy)
      baseBranch := some (input.baseBranch.getD defaults.baseBranch) }
  let st1 := { st with tasks := TaskRepository.create st.tasks task }
  match AuditLogger.append dp
      { timestamp := now, taskId := task.taskId, triggerUser := task.triggerUser
        eventType := .REQUEST, message := some task.intent } st1.auditLog with
  | .error e => (st1, .error (.plain e))
  | .ok log2 =>
    let st2 := { st1 with auditLog := log2 }
    if ¬ runtime.snapshotExists ∨ needsRuntimeClarify then
      (st2, .ok { task := task, needsClarify := true
                  expectedPath := some runtime.repoPath
                  runtimeConfigPath := some runtime.configPath
                  clarifyReason := some (if runtime.snapshotExists then
                    "RUNTIME_CONFIG_MISSING" else "SNAPSHOT_MISSING")
                  missingFields := some runtime.missingFields })
    else
      (st2, .ok { task := task, needsClarify := false })

/-- The `APPROVE` audit record body. -/
def approveAuditRecord (taskId triggerUser now actor : String) : AuditRecordInput :=
  { timestamp := now, taskId := taskId, triggerUser := triggerUser
    eventType := .APPROVE, approvalDecision := some "APPROVE"
    message := some ("Approved by " ++ actor) }

/-- The synchronous prefix of the `approve` branch of
`TaskService.applyAction`, up to the point where the runner is awaited:
state check, single-flight check, `runningApprovals` insert, `QUEUED`
progress, persisted `RUNNING` transition carrying the actor, `APPROVE`
audit record.  Returns the approved task and the original trigger user. -/
def TaskService.approveBegin (st : ServiceState) (dp : String → Bool)
    (taskId actor now : String) :
    ServiceState × Except ThrownError (TaskSpec × String) :=
  match TaskRepository.get st.tasks taskId with
  | none => (st, .error (.svc ⟨"Task not found: " ++ taskId, 404, .TASK_NOT_FOUND⟩))
  | some task =>
    if task.status ≠ .WAIT_APPROVE_WRITE then
      (st, .error (.svc ⟨"Task " ++ taskId ++ " is " ++ task.status.label ++
        ", only WAIT_APPROVE_WRITE can be approved.", 409, .STATE_CONFLICT⟩))
    else if taskId ∈ st.runningApprovals then
      (st, .error (.svc ⟨"Task " ++ taskId ++ " is already running.", 409, .STATE_CONFLICT⟩))
    else
      let st1 := { st with
        runningApprovals := addUnique st.runningApprovals taskId
        progressByTask := setProgress st.progressByTask taskId .QUEUED }
      match TaskRepository.transition st1.tasks taskId .RUNNING (some actor) with
      | .error e => (st1, .error (.plain e))
      | .ok (tasks2, approvedTask) =>
        let st2 := { st1 with tasks := tasks2 }
        match AuditLogger.append dp
            (approveAuditRecord taskId task.triggerUser now actor) st2.auditLog with
        | .error e => (st2, .error (.plain e))
        | .ok log2 => ({ st2 with auditLog := log2 }, .ok (approvedTask, task.triggerUser))

/-- The `RUN` audit record body built from a runner result. -/
def runAuditRecord (taskId triggerUser now : String) (res : TaskRunResult) :
    AuditRecordInput :=
  { timestamp := now, taskId := taskId, triggerUser := triggerUser
    eventType := .RUN, diffHash := some res.diffHash
    agentLogs := some (res.agentLogs.map JsVal.str)
    testsResult := some res.testsResult
    message := if res.agentMeta.length > 0 then
      some ("agent_meta=" ++ jsonOfMeta res.agentMeta) else none }

/-- The try-block of the approve branch after the runner settles: `RUN`
audit, the local `TEST_FAILED` policing, the conditional
`PR_CREATED` transition and audit, and the final `COMPLETED`
transition. -/
def TaskService.approveTry (st : ServiceState) (dp : String → Bool)
    (taskId triggerUser now : String)
    (runnerOutcome : Except RunThrow TaskRunResult) :
    ServiceState × Except ThrownError (TaskSpec × TaskRunResult) :=
  match runnerOutcome with
  | .error (.runner code msg) => (st, .error (.runnerErr code msg))
  | .error (.plain msg) => (st, .error (.plain msg))
  | .ok runResult =>
    match AuditLogger.append dp (runAuditRecord taskId triggerUser now runResult)
        st.auditLog with
    | .error e => (st, .error (.plain e))
    | .ok log1 =>
      let st1 := { st with auditLog := log1 }
      if runResult.testsResult ≠ "PASS" then
        (st1, .error (.svc ⟨"Tests failed. " ++
          (if runResult.testLog = "" then "See sandbox test logs." else runResult.testLog),
          500, .TEST_FAILED⟩))
      else
        let afterPr : ServiceState × Except ThrownError Unit :=
          if runResult.prLink.getD "" ≠ "" then
            match TaskRepository.transition st1.tasks taskId .PR_CREATED none with
            | .error e => (st1, .error (.plain e))
            | .ok (tasks2, _) =>
              let st2 := { st1 with tasks := tasks2 }
              match AuditLogger.append dp
                  { timestamp := now, taskId := taskId, triggerUser := triggerUser
                    eventType := .PR_CREATED, prLink := runResult.prLink }
                  st2.auditLog with
              | .error e => (st2, .error (.plain e))
              | .ok log2 => ({ st2 with auditLog := log2 }, .ok ())
          else (st1, .ok ())
        match afterPr with
        | (stP, .error e) => (stP, .error e)
        | (stP, .ok _) =>
          match TaskRepository.transition stP.tasks taskId .COMPLETED none with
          | .error e => (stP, .error (.plain e))
          | .ok (tasksC, completed) =>
            ({ stP with
                tasks := tasksC
                progressByTask := setProgress stP.progressByTask taskId .COMPLETED },
             .ok (completed, runResult))

/-- The message of a thrown value
(`err instanceof Error ? err.message : String(err)`). -/
def ThrownError.message : ThrownError → String
  | .svc e => e.message
  | .runnerErr _ msg => msg
  | .plain msg => msg

/-- The catch-block of the approve branch: classify the error code,
persist `FAILED`, set the progress stage, append the `FAILED` audit
record carrying the code, and rethrow a `TaskServiceError`. -/
def TaskService.approveCatch (st : ServiceState) (dp : String → Bool)
    (taskId triggerUser now : String) (err : ThrownError) :
    ServiceState × Except ThrownError (TaskSpec × TaskRunResult) :=
  let errorCode : ServiceErrorCode :=
    match err with
    | .svc e => e.code
    | .runnerErr code _ => serviceCodeOfRunner code
    | .plain _ => .RUN_FAILED
  match TaskRepository.transition st.tasks taskId .FAILED none with
  | .error e2 => (st, .error (.plain e2))
  | .ok (tasksF, _) =>
    let stF := { st with
      tasks := tasksF
      progressByTask := setProgress st.progressByTask taskId .FAILED }
    match AuditLogger.append dp
        { timestamp := now, taskId := taskId, triggerUser := triggerUser
          eventType := .FAILED, errorCode := some errorCode.label
          message := some err.message } stF.auditLog with
    | .error e3 => (stF, .error (.plain e3))
    | .ok logF =>
      let stF2 := { stF with auditLog := logF }
      let rethrown : ThrownError :=
        match err with
        | .svc e => .svc e
        | .runnerErr code msg =>
          .svc ⟨"Task " ++ taskId ++ " failed: " ++ msg, 500, serviceCodeOfRunner code⟩
        | .plain msg =>
          .svc ⟨"Task " ++ taskId ++ " failed: " ++ msg, 500, .RUN_FAILED⟩
      (stF2, .error rethrown)

/-- Try/catch/finally of the approve branch after `approveBegin`: the
`finally` deletes the task id from `runningApprovals` on every exit
path. -/
def TaskService.approveFinish (st : ServiceState) (dp : String → Bool)
    (taskId triggerUser now : String)
    (runnerOutcome : Except RunThrow TaskRunResult) :
    ServiceState × Except ThrownError (TaskSpec × TaskRunResult) :=
  let tried := TaskService.approveTry st dp taskId triggerUser now runnerOutcome
  let settled : ServiceState × Except ThrownError (TaskSpec × TaskRunResult) :=
    match tried with
    | (stT, .ok r) => (stT, .ok r)
    | (stT, .error err) => TaskService.approveCatch stT dp taskId triggerUser now err
  ({ settled.1 with runningApprovals := removeAll settled.1.runningApprovals taskId },
   settled.2)

/-- `TaskService.applyAction` from `taskService.ts`, the awaited runner
outcome passed in as a value.  The result pairs the task with the run
result for the approve branch. -/
def TaskService.applyAction (st : ServiceState) (fs : RepoFs)
    (fallback : RepoRuntimeFallback) (repoRoot : String) (dp : String → Bool)
    (taskId : String) (action : TaskAction) (actor now : String)
    (runnerOutcome : Except RunThrow TaskRunResult) :
    ServiceState × Except ThrownError (TaskSpec × Option TaskRunResult) :=
  match TaskRepository.get st.tasks taskId with
  | none => (st, .error (.svc ⟨"Task not found: " ++ taskId, 404, .TASK_NOT_FOUND⟩))
  | some task =>
    match action with
    | .retry =>
      if task.status ≠ .WAIT_CLARIFY then
        (st, .error (.svc ⟨"Task " ++ taskId ++ " is " ++ task.status.label ++
          ", retry is not available.", 409, .STATE_CONFLICT⟩))
      else
        let runtime := resolveRepoRuntime repoRoot task.repo fs fallback
        if ¬ runtime.snapshotExists then
          (st, .error (.svc ⟨"Snapshot still missing for '" ++ task.repo ++
            "'. Expected path: " ++ runtime.repoPath, 409, .SNAPSHOT_MISSING⟩))
        else if runtime.missingFields.length > 0 then
          (st, .error (.svc ⟨"Runtime config missing for '" ++ task.repo ++ "'.",
            409, .RUNTIME_CONFIG_MISSING⟩))
        else
          match TaskRepository.transition st.tasks taskId .WAIT_APPROVE_WRITE none with
          | .error e => (st, .error (.plain e))
          | .ok (tasks2, updated) =>
            match AuditLogger.append dp
                { timestamp := now, taskId := taskId, triggerUser := task.triggerUser
                  eventType := .RETRY, message := some ("Retry by " ++ actor) }
                st.auditLog with
            | .error e => ({ st with tasks := tasks2 }, .error (.plain e))
            | .ok log2 =>
              ({ st with tasks := tasks2, auditLog := log2 }, .ok (updated, none))
    | .reject =>
      if task.status ≠ .WAIT_CLARIFY ∧ task.status ≠ .WAIT_APPROVE_WRITE then
        (st, .error (.svc ⟨"Task " ++ taskId ++ " is " ++ task.status.label ++
          ", reject is only allowed in pending states.", 409, .STATE_CONFLICT⟩))
      else
        match TaskRepository.transition st.tasks taskId .FAILED none with
        | .error e => (st, .error (.plain e))
        | .ok (tasks2, updated) =>
          match AuditLogger.append dp
              { timestamp := now, taskId := taskId, triggerUser := task.triggerUser
                eventType := .REJECT, approvalDecision := some "REJECT"
                message := some ("Rejected by " ++ actor) }
              st.auditLog with
          | .error e => ({ st with tasks := tasks2 }, .error (.plain e))
          | .ok log2 =>
            ({ st with tasks := tasks2, auditLog := log2 }, .ok (updated, none))
    | .approve =>
      match TaskService.approveBegin st dp taskId actor now with
      | (st1, .error e) => (st1, .error e)
      | (st1, .ok (_, triggerUser)) =>
        match TaskService.approveFinish st1 dp taskId triggerUser now runnerOutcome with
        | (st2, .ok (t, res)) => (st2, .ok (t, some res))
        | (st2, .error e) => (st2, .error e)

/-- Helper: `Set.delete` really removes the key. -/
theorem mem_removeAll_self (xs : List String) (x : String) : x ∉ removeAll xs x := by
  simp [removeAll, List.mem_filter]

/-- Helper: `Set.add` really inserts the key. -/
theorem mem_addUnique_self (xs : List String) (x : String) : x ∈ addUnique xs x := by
  unfold addUnique
  split
  · assumption
  · simp

/-- **C2.** Single-flight per task: (i) while a task id sits in the
in-memory `runningApprovals` set, a second approve on it fails with a
409 `STATE_CONFLICT` and the returned state is exactly the input state —
no transition is persisted and no audit record is appended; (ii) a
successful synchronous approve prefix leaves its task id in the set, so
of two concurrent approves only the first reaches a run; (iii) settling
the run removes the id from the set unconditionally, whatever the runner
outcome. -/
theorem approve_is_single_flight_per_task :
    (∀ st dp taskId actor now t,
      TaskRepository.get st.tasks taskId = some t →
      taskId ∈ st.runningApprovals →
      ∃ e, TaskService.approveBegin st dp taskId actor now = (st, .error (.svc e)) ∧
        e.statusCode = 409 ∧ e.code = .STATE_CONFLICT) ∧
    (∀ st dp taskId actor now st1 t u,
      TaskService.approveBegin st dp taskId actor now = (st1, .ok (t, u)) →
      taskId ∈ st1.runningApprovals) ∧
    (∀ st dp taskId triggerUser now ro,
      taskId ∉ (TaskService.approveFinish st dp taskId triggerUser now ro).1.runningApprovals) := by
  refine ⟨?_, ?_, ?_⟩
  · intro st dp taskId actor now t hget hmem
    unfold TaskService.approveBegin
    rw [hget]
    simp only []
    by_cases hs : t.status ≠ TaskStatus.WAIT_APPROVE_WRITE
    · rw [if_pos hs]
      exact ⟨_, rfl, rfl, rfl⟩
    · rw [if_neg hs, if_pos hmem]
      exact ⟨_, rfl, rfl, rfl⟩
  · intro st dp taskId actor now st1 t u h
    unfold TaskService.approveBegin at h
    cases hget : TaskRepository.get st.tasks taskId with
    | none =>
      rw [hget] at h
      simp only [] at h
      exact absurd (congrArg Prod.snd h) (by simp)
    | some task =>
      rw [hget] at h
      simp only [] at h
      by_cases hs : task.status ≠ TaskStatus.WAIT_APPROVE_WRITE
      · rw [if_pos hs] at h
        exact absurd (congrArg Prod.snd h) (by simp)
      · rw [if_neg hs] at h
        by_cases hmem : taskId ∈ st.runningApprovals
        · rw [if_pos hmem] at h
          exact absurd (congrArg Prod.snd h) (by simp)
        · rw [if_neg hmem] at h
          cases htr : TaskRepository.transition st.tasks taskId .RUNNING (some actor) with
          | error e =>
            rw [htr] at h
            simp only [] at h
            exact absurd (congrArg Prod.snd h) (by simp)
          | ok p =>
            rw [htr] at h
            obtain ⟨tasks2, approvedTask⟩ := p
            simp only [] at h
            cases hap : AuditLogger.append dp
                (approveAuditRecord taskId task.triggerUser now actor) st.auditLog with
            | error e =>
              rw [hap] at h
              exact absurd (congrArg Prod.snd h) (by simp)
            | ok log2 =>
              rw [hap] at h
              have hst : st1 = { tasks := tasks2
                                 runningApprovals := addUnique st.runningApprovals taskId
                                 progressByTask := setProgress st.progressByTask taskId RunStage.QUEUED
                                 auditLog := log2 } := (congrArg Prod.fst h).symm
              rw [hst]
              exact mem_addUnique_self _ _
  · intro st dp taskId triggerUser now ro
    unfold TaskService.approveFinish
    exact mem_removeAll_self _ _

/-- A service state with task `t1` mid-run: status `RUNNING` and its id
in the single-flight set. -/
def inFlightState : ServiceState :=
  { tasks := fun k =>
      if k = "t1" then some { sampleTask with status := .RUNNING, approvedBy := some "alice" }
      else none
    runningApprovals := ["t1"]
    progressByTask := [("t1", .QUEUED)]
    auditLog := [] }

/-- Closed witness for `approve_is_single_flight_per_task`: a second
approve of the in-flight task `t1` is rejected with `STATE_CONFLICT`. -/
theorem approve_is_single_flight_witness :
    ∃ e, TaskService.approveBegin inFlightState (fun _ => true) "t1" "bob" "2026-01-01T00:00:01Z"
        = (inFlightState, .error (.svc e)) ∧
      e.statusCode = 409 ∧ e.code = .STATE_CONFLICT :=
  approve_is_single_flight_per_task.1 inFlightState (fun _ => true) "t1" "bob"
    "2026-01-01T00:00:01Z"
    { sampleTask with status := .RUNNING, approvedBy := some "alice" }
    rfl (by decide)

/-- **C7.** `createTask` starts the task at `WAIT_APPROVE_WRITE` iff the
snapshot exists and the runtime configuration has no missing fields;
otherwise at `WAIT_CLARIFY` with `clarifyReason` `RUNTIME_CONFIG_MISSING`
when the snapshot exists and `SNAPSHOT_MISSING` when it does not, a
non-null `expectedPath` and the missing-field list; and the `REQUEST`
audit record is appended, synchronously, before the call returns
(hypotheses: audit-valid trigger user, id and timestamp, as the gateway
guarantees). -/
theorem createTask_readiness_clarify_and_request_audit :
    ∀ st fs fallback repoRoot defaults dp (input : CreateTaskInput) newId nowMs now,
      dp now = true → now ≠ "" → newId ≠ "" → input.triggerUser ≠ "" →
      ∃ res, (TaskService.createTask st fs fallback repoRoot defaults dp input newId nowMs now).2
          = .ok res ∧
        (res.task.status = .WAIT_APPROVE_WRITE ↔
          ((resolveRepoRuntime repoRoot input.repo fs fallback).snapshotExists = true ∧
           (resolveRepoRuntime repoRoot input.repo fs fallback).missingFields = [])) ∧
        (res.task.status ≠ .WAIT_APPROVE_WRITE →
          res.task.status = .WAIT_CLARIFY ∧
          res.clarifyReason = some (if (resolveRepoRuntime repoRoot input.repo fs fallback).snapshotExists
            then "RUNTIME_CONFIG_MISSING" else "SNAPSHOT_MISSING") ∧
          res.expectedPath = some (resolveRepoRuntime repoRoot input.repo fs fallback).repoPath ∧
          res.missingFields = some (resolveRepoRuntime repoRoot input.repo fs fallback).missingFields) ∧
        (TaskService.createTask st fs fallback repoRoot defaults dp input newId nowMs now).1.auditLog
          = st.auditLog ++ [normalizeAudit
              { timestamp := now, taskId := newId, triggerUser := input.triggerUser
                eventType := .REQUEST, message := some input.intent }] := by
  intro st fs fallback repoRoot defaults dp input newId nowMs now h1 h2 h3 h4
  have hacc : auditRecordAcceptable dp
      { timestamp := now, taskId := newId, triggerUser := input.triggerUser
        eventType := EventType.REQUEST, message := some input.intent } = true := by
    unfold auditRecordAcceptable
    simp [h1, h2, h3, h4, ALLOWED_EVENT_TYPES, Option.all]
  unfold TaskService.createTask
  dsimp only []
  rw [append_ok_of_acceptable dp _ _ hacc]
  dsimp only []
  set runtime := resolveRepoRuntime repoRoot input.repo fs fallback with hrt
  have hlen : (runtime.missingFields.length > 0) ↔ runtime.missingFields ≠ [] := by
    cases runtime.missingFields <;> simp
  by_cases hsn : runtime.snapshotExists = true <;> by_cases hmf : runtime.missingFields = []
  · have hcond : (runtime.snapshotExists = true ∧ ¬ runtime.missingFields.length > 0) := by
      constructor
      · exact hsn
      · rw [hlen]; simp [hmf]
    have hcl : ¬ (¬ runtime.snapshotExists = true ∨ runtime.missingFields.length > 0) := by
      simp only [not_or, not_not]
      exact ⟨hsn, hcond.2⟩
    rw [if_neg hcl, if_pos hcond]
    exact ⟨_, rfl, by simp [hsn, hmf], by simp, rfl⟩
  · have hcond : ¬ (runtime.snapshotExists = true ∧ ¬ runtime.missingFields.length > 0) := by
      rw [hlen]; tauto
    have hcl : (¬ runtime.snapshotExists = true ∨ runtime.missingFields.length > 0) := by
      rw [hlen]; tauto
    rw [if_pos hcl, if_neg hcond]
    refine ⟨_, rfl, by simp [hmf], by simp, rfl⟩
  · have hcond : ¬ (runtime.snapshotExists = true ∧ ¬ runtime.missingFields.length > 0) := by
      tauto
    have hcl : (¬ runtime.snapshotExists = true ∨ runtime.missingFields.length > 0) := by
      tauto
    rw [if_pos hcl, if_neg hcond]
    refine ⟨_, rfl, by simp [hsn], by simp, rfl⟩
  · have hcond : ¬ (runtime.snapshotExists = true ∧ ¬ runtime.missingFields.length > 0) := by
      tauto
    have hcl : (¬ runtime.snapshotExists = true ∨ runtime.missingFields.length > 0) := by
      tauto
    rw [if_pos hcl, if_neg hcond]
    refine ⟨_, rfl, by simp [hsn], by simp, rfl⟩

/-- The empty service state. -/
def emptyState : ServiceState :=
  { tasks := fun _ => none, runningApprovals := [], progressByTask := [], auditLog := [] }

/-- A repository whose snapshot directory is absent. -/
def noSnapshotFs : RepoFs :=
  { snapshotExists := false, configFileExists := false, configContent := "" }

/-- The fallback runtime configuration of the service's environment. -/
def sampleFallback : RepoRuntimeFallback :=
  { sandboxImage := "node:22-bookworm-slim", testCommand := "npm test"
    allowedTestCommands := ["npm test"] }

/-- The service constructor defaults of the fixtures. -/
def sampleDefaults : ServiceDefaults :=
  { deliveryStrategy := "rolling", baseBranch := "main" }

/-- The create input of the fixtures. -/
def sampleInput : CreateTaskInput :=
  { sourceIm := "api", triggerUser := "tg:1", repo := "org/name", intent := "test" }

/-- Closed witness for `createTask_readiness_clarify_and_request_audit`:
creating a task for a repo with no snapshot. -/
theorem createTask_readiness_witness :
    ∃ res, (TaskService.createTask emptyState noSnapshotFs sampleFallback "/srv/repos"
        sampleDefaults (fun _ => true) sampleInput "t9" 1700000000000 "2026-01-01T00:00:00Z").2
        = .ok res ∧
      (res.task.status = .WAIT_APPROVE_WRITE ↔
        ((resolveRepoRuntime "/srv/repos" sampleInput.repo noSnapshotFs sampleFallback).snapshotExists = true ∧
         (resolveRepoRuntime "/srv/repos" sampleInput.repo noSnapshotFs sampleFallback).missingFields = [])) ∧
      (res.task.status ≠ .WAIT_APPROVE_WRITE →
        res.task.status = .WAIT_CLARIFY ∧
        res.clarifyReason = some (if (resolveRepoRuntime "/srv/repos" sampleInput.repo noSnapshotFs sampleFallback).snapshotExists
          then "RUNTIME_CONFIG_MISSING" else "SNAPSHOT_MISSING") ∧
        res.expectedPath = some (resolveRepoRuntime "/srv/repos" sampleInput.repo noSnapshotFs sampleFallback).repoPath ∧
        res.missingFields = some (resolveRepoRuntime "/srv/repos" sampleInput.repo noSnapshotFs sampleFallback).missingFields) ∧
      (TaskService.createTask emptyState noSnapshotFs sampleFallback "/srv/repos"
        sampleDefaults (fun _ => true) sampleInput "t9" 1700000000000 "2026-01-01T00:00:00Z").1.auditLog
        = emptyState.auditLog ++ [normalizeAudit
            { timestamp := "2026-01-01T00:00:00Z", taskId := "t9", triggerUser := sampleInput.triggerUser
              eventType := .REQUEST, message := some sampleInput.intent }] :=
  createTask_readiness_clarify_and_request_audit emptyState noSnapshotFs sampleFallback
    "/srv/repos" sampleDefaults (fun _ => true) sampleInput "t9" 1700000000000
    "2026-01-01T00:00:00Z" rfl (by decide) (by decide) (by decide)

/-- Helper: a transition whose source row exists and whose edge is
admitted succeeds with the coalesced update. -/
theorem transition_ok_of {db : TaskDb} {taskId : String} {t : TaskSpec}
    (next : TaskStatus) (appr : Option String)
    (h : TaskRepository.get db taskId = some t)
    (hc : canTransition t.status next = true) :
    TaskRepository.transition db taskId next appr =
      .ok (TaskDb.set db taskId
            { t with
              status := next
              approvedBy := match appr with | some a => some a | none => t.approvedBy },
           { t with
             status := next
             approvedBy := match appr with | some a => some a | none => t.approvedBy }) := by
  unfold TaskRepository.transition
  rw [show db taskId = some t from h]
  simp only []
  rw [if_pos hc]

/-- Helper: reading back the row just written. -/
theorem get_set_self (db : TaskDb) (taskId : String) (t : TaskSpec) :
    TaskRepository.get (TaskDb.set db taskId t) taskId = some t := by
  simp [TaskRepository.get, TaskDb.set]

/-- **C5.** A sandbox exit code of 0 yields `testsResult = "PASS"` and
any nonzero exit yields `"FAIL"`; and when the runner returns a
non-`PASS` result without throwing, the service polices it: the settled
approve ends with the task `FAILED`, a `FAILED` audit record carrying
`errorCode TEST_FAILED` right after the `RUN` record, and a
`TEST_FAILED` service error (HTTP 500) surfaced to the caller. -/
theorem tests_exit_code_maps_and_failures_policed :
    (∀ policy env sb res, env.sandboxOutcome = .ok sb →
      TaskRunner.run policy env = .ok res →
      res.testsResult = (if sb.testExitCode = 0 then "PASS" else "FAIL")) ∧
    (∀ st dp taskId trig now res task,
      dp now = true → now ≠ "" → taskId ≠ "" → trig ≠ "" →
      TaskRepository.get st.tasks taskId = some task → task.status = .RUNNING →
      res.testsResult ≠ "PASS" →
      (∃ e, (TaskService.approveFinish st dp taskId trig now (.ok res)).2
          = .error (.svc e) ∧ e.code = .TEST_FAILED ∧ e.statusCode = 500) ∧
      (∃ t', TaskRepository.get
          (TaskService.approveFinish st dp taskId trig now (.ok res)).1.tasks taskId
          = some t' ∧ t'.status = .FAILED) ∧
      (∃ failRec, (TaskService.approveFinish st dp taskId trig now (.ok res)).1.auditLog
          = st.auditLog ++ [normalizeAudit (runAuditRecord taskId trig now res), failRec] ∧
        failRec.eventType = .FAILED ∧ failRec.errorCode = some "TEST_FAILED")) := by
  constructor
  · intro policy env sb res hs h
    unfold TaskRunner.run at h
    cases hb : env.buildCommand <;> rw [hb] at h
    · exact absurd h (by simp)
    · cases hh : env.hostOutcome <;> rw [hh] at h
      · exact absurd h (by simp)
      · rw [hs] at h
        dsimp only [] at h
        split at h
        · exact absurd h (by simp)
        · split at h
          · cases hp : env.prOutcome <;> rw [hp] at h <;> dsimp only [] at h
            · exact absurd h (by simp)
            · injection h with h2
              subst h2
              rfl
          · injection h with h2
            subst h2
            rfl
  · intro st dp taskId trig now res task h1 h2 h3 h4 hget hrun hfail
    have haccRun : auditRecordAcceptable dp (runAuditRecord taskId trig now res) = true := by
      unfold auditRecordAcceptable runAuditRecord
      simp [h1, h2, h3, h4, ALLOWED_EVENT_TYPES, Option.all, List.all_eq_true, JsVal.isStr]
    have htry : TaskService.approveTry st dp taskId trig now (.ok res)
        = ({ st with auditLog := st.auditLog ++ [normalizeAudit (runAuditRecord taskId trig now res)] },
           .error (.svc ⟨"Tests failed. " ++
             (if res.testLog = "" then "See sandbox test logs." else res.testLog),
             500, .TEST_FAILED⟩)) := by
      unfold TaskService.approveTry
      dsimp only []
      rw [append_ok_of_acceptable dp _ _ haccRun]
      dsimp only []
      rw [if_pos hfail]
    unfold TaskService.approveFinish
    rw [htry]
    dsimp only []
    unfold TaskService.approveCatch
    dsimp only []
    rw [transition_ok_of .FAILED none hget (by rw [hrun]; decide)]
    dsimp only []
    have haccFail : auditRecordAcceptable dp
        { timestamp := now, taskId := taskId, triggerUser := trig
          eventType := EventType.FAILED
          errorCode := some (ServiceErrorCode.TEST_FAILED).label
          message := some (ThrownError.svc ⟨"Tests failed. " ++
             (if res.testLog = "" then "See sandbox test logs." else res.testLog),
             500, .TEST_FAILED⟩).message } = true := by
      unfold auditRecordAcceptable
      simp [h1, h2, h3, h4, ALLOWED_EVENT_TYPES, Option.all]
    rw [append_ok_of_acceptable dp _ _ haccFail]
    dsimp only []
    refine ⟨⟨_, rfl, rfl, rfl⟩, ⟨_, get_set_self _ _ _, rfl⟩,
      ⟨normalizeAudit
        { timestamp := now, taskId := taskId, triggerUser := trig
          eventType := EventType.FAILED
          errorCode := some (ServiceErrorCode.TEST_FAILED).label
          message := some (ThrownError.svc ⟨"Tests failed. " ++
             (if res.testLog = "" then "See sandbox test logs." else res.testLog),
             500, .TEST_FAILED⟩).message }, ?_, rfl, rfl⟩⟩
    simp

/-- A failed run result fixture (nonzero sandbox exit). -/
def failRunResult : TaskRunResult :=
  { testsResult := "FAIL", testLog := "1 test failed", diffHash := "h", hasDiff := true
    changedFiles := ["src/a.ts"], insertions := 1, deletions := 0
    agentLogs := ["log"], agentMeta := [], prLink := none }

/-- Closed witness for `tests_exit_code_maps_and_failures_policed`: a
`FAIL` result on the in-flight task ends `FAILED` with `TEST_FAILED`. -/
theorem tests_failures_policed_witness :
    (∃ e, (TaskService.approveFinish inFlightState (fun _ => true) "t1" "tg:1"
        "2026-01-01T00:00:02Z" (.ok failRunResult)).2
        = .error (.svc e) ∧ e.code = .TEST_FAILED ∧ e.statusCode = 500) ∧
    (∃ t', TaskRepository.get
        (TaskService.approveFinish inFlightState (fun _ => true) "t1" "tg:1"
          "2026-01-01T00:00:02Z" (.ok failRunResult)).1.tasks "t1"
        = some t' ∧ t'.status = .FAILED) ∧
    (∃ failRec, (TaskService.approveFinish inFlightState (fun _ => true) "t1" "tg:1"
        "2026-01-01T00:00:02Z" (.ok failRunResult)).1.auditLog
        = inFlightState.auditLog ++
          [normalizeAudit (runAuditRecord "t1" "tg:1" "2026-01-01T00:00:02Z" failRunResult), failRec] ∧
      failRec.eventType = .FAILED ∧ failRec.errorCode = some "TEST_FAILED") :=
  tests_exit_code_maps_and_failures_policed.2 inFlightState (fun _ => true) "t1" "tg:1"
    "2026-01-01T00:00:02Z" failRunResult
    { sampleTask with status := .RUNNING, approvedBy := some "alice" }
    rfl (by decide) (by decide) (by decide) rfl rfl (by decide)

/-- Helper: the successful synchronous approve prefix, spelled out. -/
theorem approveBegin_ok {st : ServiceState} {dp : String → Bool}
    {taskId actor now : String} {task : TaskSpec}
    (hget : TaskRepository.get st.tasks taskId = some task)
    (hst : task.status = .WAIT_APPROVE_WRITE)
    (hmem : taskId ∉ st.runningApprovals)
    (hacc : auditRecordAcceptable dp (approveAuditRecord taskId task.triggerUser now actor) = true) :
    TaskService.approveBegin st dp taskId actor now =
      ({ tasks := TaskDb.set st.tasks taskId { task with status := .RUNNING, approvedBy := some actor }
         runningApprovals := addUnique st.runningApprovals taskId
         progressByTask := setProgress st.progressByTask taskId .QUEUED
         auditLog := st.auditLog ++ [normalizeAudit (approveAuditRecord taskId task.triggerUser now actor)] },
       .ok ({ task with status := .RUNNING, approvedBy := some actor }, task.triggerUser)) := by
  unfold TaskService.approveBegin
  rw [hget]
  simp only []
  rw [if_neg (by simp [hst])]
  rw [if_neg hmem]
  rw [transition_ok_of .RUNNING (some actor) hget (by rw [hst]; decide)]
  dsimp only []
  rw [append_ok_of_acceptable dp _ _ hacc]

/-- Helper: the settled approve on a passing, link-less run result,
spelled out. -/
theorem approveFinish_completes {st : ServiceState} {dp : String → Bool}
    {taskId trig now : String} {res : TaskRunResult} {task : TaskSpec}
    (hget : TaskRepository.get st.tasks taskId = some task)
    (hrun : task.status = .RUNNING)
    (hpass : res.testsResult = "PASS")
    (hnopr : res.prLink = none)
    (haccRun : auditRecordAcceptable dp (runAuditRecord taskId trig now res) = true) :
    TaskService.approveFinish st dp taskId trig now (.ok res) =
      ({ tasks := TaskDb.set st.tasks taskId { task with status := .COMPLETED }
         runningApprovals := removeAll st.runningApprovals taskId
         progressByTask := setProgress st.progressByTask taskId .COMPLETED
         auditLog := st.auditLog ++ [normalizeAudit (runAuditRecord taskId trig now res)] },
       .ok ({ task with status := .COMPLETED }, res)) := by
  have htry : TaskService.approveTry st dp taskId trig now (.ok res)
      = ({ st with
            tasks := TaskDb.set st.tasks taskId { task with status := .COMPLETED }
            progressByTask := setProgress st.progressByTask taskId .COMPLETED
            auditLog := st.auditLog ++ [normalizeAudit (runAuditRecord taskId trig now res)] },
         .ok ({ task with status := .COMPLETED }, res)) := by
    unfold TaskService.approveTry
    dsimp only []
    rw [append_ok_of_acceptable dp _ _ haccRun]
    dsimp only []
    rw [if_neg (by simp [hpass])]
    rw [if_neg (by simp [hnopr])]
    dsimp only []
    rw [transition_ok_of .COMPLETED none hget (by rw [hrun]; decide)]
  unfold TaskService.approveFinish
  rw [htry]

/-- **C6.** On an empty (whitespace-only) agent diff: the runner returns
`hasDiff = false` and `prLink = null`; its outcome is the same for every
policy and every delivery-collaborator outcome, so neither the policy
evaluator's verdict nor the delivery collaborator is ever consulted; and
if the sandbox tests pass, the settled approve ends `COMPLETED`
appending exactly the `APPROVE` and `RUN` audit records — no
`PR_CREATED` (with `REQUEST` appended at creation, the task's history is
`REQUEST, APPROVE, RUN` only). -/
theorem empty_diff_skips_policy_and_delivery :
    (∀ (policy : DiffPolicyOptions) (env : RunnerEnv) (host : HostResult) (res : TaskRunResult),
      env.hostOutcome = .ok host → jsTrim host.diff = "" →
      TaskRunner.run policy env = .ok res →
      res.hasDiff = false ∧ res.prLink = none) ∧
    (∀ (policy policy2 : DiffPolicyOptions) (env : RunnerEnv) (host : HostResult)
        (pr pr2 : Except String (Option String)),
      env.hostOutcome = .ok host → jsTrim host.diff = "" →
      TaskRunner.run policy { env with prOutcome := pr }
        = TaskRunner.run policy2 { env with prOutcome := pr2 }) ∧
    (∀ (st : ServiceState) (fs : RepoFs) (fallback : RepoRuntimeFallback)
        (repoRoot : String) (dp : String → Bool) (taskId actor now : String)
        (res : TaskRunResult) (task : TaskSpec),
      dp now = true → now ≠ "" → taskId ≠ "" → task.triggerUser ≠ "" →
      TaskRepository.get st.tasks taskId = some task →
      task.status = .WAIT_APPROVE_WRITE →
      taskId ∉ st.runningApprovals →
      res.testsResult = "PASS" → res.prLink = none →
      ∃ t', (TaskService.applyAction st fs fallback repoRoot dp taskId .approve actor now (.ok res)).2
          = .ok (t', some res) ∧
        t'.status = .COMPLETED ∧
        TaskRepository.get
          (TaskService.applyAction st fs fallback repoRoot dp taskId .approve actor now (.ok res)).1.tasks
          taskId = some t' ∧
        (TaskService.applyAction st fs fallback repoRoot dp taskId .approve actor now (.ok res)).1.auditLog
          = st.auditLog ++ [normalizeAudit (approveAuditRecord taskId task.triggerUser now actor),
              normalizeAudit (runAuditRecord taskId task.triggerUser now res)] ∧
        (normalizeAudit (approveAuditRecord taskId task.triggerUser now actor)).eventType = .APPROVE ∧
        (normalizeAudit (runAuditRecord taskId task.triggerUser now res)).eventType = .RUN) := by
  refine ⟨?_, ?_, ?_⟩
  · intro policy env host res hh hd h
    unfold TaskRunner.run at h
    cases hb : env.buildCommand <;> rw [hb] at h
    · exact absurd h (by simp)
    · rw [hh] at h
      cases hs : env.sandboxOutcome <;> rw [hs] at h
      · exact absurd h (by simp)
      · dsimp only [] at h
        rw [if_neg (by simp [hd])] at h
        rw [if_neg (by simp [hd])] at h
        injection h with h2
        subst h2
        simp [hd]
  · intro policy policy2 env host pr pr2 hh hd
    unfold TaskRunner.run
    dsimp only []
    cases hb : env.buildCommand
    · rfl
    · rw [hh]
      cases hs : env.sandboxOutcome
      · rfl
      · dsimp only []
        have hfalse : decide ((jsTrim host.diff).length > 0) = false := by simp [hd]
        simp [hfalse]
  · intro st fs fallback repoRoot dp taskId actor now res task h1 h2 h3 h4 hget hst hmem hpass hnopr
    have haccA : auditRecordAcceptable dp (approveAuditRecord taskId task.triggerUser now actor) = true := by
      unfold auditRecordAcceptable approveAuditRecord
      simp [h1, h2, h3, h4, ALLOWED_EVENT_TYPES, Option.all]
    have haccR : auditRecordAcceptable dp (runAuditRecord taskId task.triggerUser now res) = true := by
      unfold auditRecordAcceptable runAuditRecord
      simp [h1, h2, h3, h4, ALLOWED_EVENT_TYPES, Option.all, List.all_eq_true, JsVal.isStr]
    unfold TaskService.applyAction
    rw [hget]
    simp only []
    rw [approveBegin_ok hget hst hmem haccA]
    dsimp only []
    rw [approveFinish_completes (get_set_self _ _ _) rfl hpass hnopr haccR]
    dsimp only []
    refine ⟨_, rfl, rfl, get_set_self _ _ _, ?_, rfl, rfl⟩
    simp

/-- A service state whose `t1` awaits approval. -/
def readyState : ServiceState :=
  { tasks := sampleDb, runningApprovals := [], progressByTask := [], auditLog := [] }

/-- Run result of an empty agent diff with passing tests. -/
def emptyDiffRunResult : TaskRunResult :=
  { testsResult := "PASS", testLog := "ok", diffHash := "e3b0", hasDiff := false
    changedFiles := [], insertions := 0, deletions := 0
    agentLogs := [], agentMeta := [], prLink := none }

/-- Closed witness for `empty_diff_skips_policy_and_delivery`: approving
`t1` with an empty-diff passing run completes it with `APPROVE, RUN`
audit only. -/
theorem empty_diff_completes_witness :
    ∃ t', (TaskService.applyAction readyState noSnapshotFs sampleFallback "/srv/repos"
        (fun _ => true) "t1" .approve "alice" "2026-01-01T00:00:03Z" (.ok emptyDiffRunResult)).2
        = .ok (t', some emptyDiffRunResult) ∧
      t'.status = .COMPLETED ∧
      TaskRepository.get
        (TaskService.applyAction readyState noSnapshotFs sampleFallback "/srv/repos"
          (fun _ => true) "t1" .approve "alice" "2026-01-01T00:00:03Z" (.ok emptyDiffRunResult)).1.tasks
        "t1" = some t' ∧
      (TaskService.applyAction readyState noSnapshotFs sampleFallback "/srv/repos"
        (fun _ => true) "t1" .approve "alice" "2026-01-01T00:00:03Z" (.ok emptyDiffRunResult)).1.auditLog
        = readyState.auditLog ++
          [normalizeAudit (approveAuditRecord "t1" sampleTask.triggerUser "2026-01-01T00:00:03Z" "alice"),
           normalizeAudit (runAuditRecord "t1" sampleTask.triggerUser "2026-01-01T00:00:03Z" emptyDiffRunResult)] ∧
      (normalizeAudit (approveAuditRecord "t1" sampleTask.triggerUser "2026-01-01T00:00:03Z" "alice")).eventType = .APPROVE ∧
      (normalizeAudit (runAuditRecord "t1" sampleTask.triggerUser "2026-01-01T00:00:03Z" emptyDiffRunResult)).eventType = .RUN :=
  empty_diff_skips_policy_and_delivery.2.2 readyState noSnapshotFs sampleFallback "/srv/repos"
    (fun _ => true) "t1" "alice" "2026-01-01T00:00:03Z" emptyDiffRunResult sampleTask
    rfl (by decide) (by decide) (by decide) rfl rfl (by decide) rfl rfl

/-! ## Sandbox validator (`dockerSandbox.ts`) -/

/-- `DockerSandboxOptions` from the source. -/
structure DockerSandboxOptions where
  image : String
  repoRoot : String
  allowedTestCommands : List String
  defaultTestCommand : String
deriving Repr, DecidableEq

/-- The `docker run` invocation `runValidation` would start: image,
`--network none`, the `TEST_CMD` environment value, and the read-only
mounts. -/
structure DockerRunSpec where
  image : String
  network : String
  testCmd : String
  repoMount : String
  candidateMount : String
deriving Repr, DecidableEq

/-- `DockerSandbox.runValidation` up to and including the start of the
container: resolve the host repo path (throws when the snapshot is
missing), resolve the per-repo runtime fresh, and fail closed via
`assertAllowedTestCommand` before any `docker` invocation; the returned
value is the container invocation that is then started.  (The container
execution, log readback and temp-dir cleanup that follow are outside
this model.) -/
def DockerSandbox.runValidation (opts : DockerSandboxOptions) (fs : RepoFs)
    (repo candidatePath : String) : Except String DockerRunSpec :=
  if ¬ fs.snapshotExists then
    .error ("Repo snapshot not found: " ++ resolveRepoSnapshotPath opts.repoRoot repo)
  else
    let runtime := resolveRepoRuntime opts.repoRoot repo fs
      { sandboxImage := opts.image, testCommand := opts.defaultTestCommand
        allowedTestCommands := opts.allowedTestCommands }
    if ¬ runtime.allowedTestCommands.contains runtime.testCommand then
      .error ("Test command is not allowed: " ++ runtime.testCommand)
    else
      .ok { image := runtime.sandboxImage, network := "none"
            testCmd := runtime.testCommand
            repoMount := runtime.repoPath ++ ":/repo:ro"
            candidateMount := candidatePath ++ ":/candidate:ro" }

/-- **C8.** If the resolved test command is not a literal member of the
resolved allowlist, `runValidation` throws before any container is
started (no `DockerRunSpec` is produced); a container is only ever
started with a test command that is in the allowlist — and with the
network disabled. -/
theorem sandbox_fails_closed_on_disallowed_command :
    (∀ opts fs repo candidatePath,
      (resolveRepoRuntime opts.repoRoot repo fs
        { sandboxImage := opts.image, testCommand := opts.defaultTestCommand
          allowedTestCommands := opts.allowedTestCommands }).allowedTestCommands.contains
        (resolveRepoRuntime opts.repoRoot repo fs
          { sandboxImage := opts.image, testCommand := opts.defaultTestCommand
            allowedTestCommands := opts.allowedTestCommands }).testCommand = false →
      ∃ e, DockerSandbox.runValidation opts fs repo candidatePath = .error e) ∧
    (∀ opts fs repo candidatePath spec,
      DockerSandbox.runValidation opts fs repo candidatePath = .ok spec →
      (resolveRepoRuntime opts.repoRoot repo fs
        { sandboxImage := opts.image, testCommand := opts.defaultTestCommand
          allowedTestCommands := opts.allowedTestCommands }).allowedTestCommands.contains
        spec.testCmd = true ∧ spec.network = "none") := by
  constructor
  · intro opts fs repo candidatePath hno
    unfold DockerSandbox.runValidation
    by_cases hsn : ¬ fs.snapshotExists = true
    · rw [if_pos hsn]
      exact ⟨_, rfl⟩
    · rw [if_neg hsn]
      dsimp only []
      rw [if_pos (by simpa using hno)]
      exact ⟨_, rfl⟩
  · intro opts fs repo candidatePath spec h
    unfold DockerSandbox.runValidation at h
    by_cases hsn : ¬ fs.snapshotExists = true
    · rw [if_pos hsn] at h
      exact absurd h (by simp)
    · rw [if_neg hsn] at h
      dsimp only [] at h
      by_cases hal : ¬ (resolveRepoRuntime opts.repoRoot repo fs
          { sandboxImage := opts.image, testCommand := opts.defaultTestCommand
            allowedTestCommands := opts.allowedTestCommands }).allowedTestCommands.contains
          (resolveRepoRuntime opts.repoRoot repo fs
            { sandboxImage := opts.image, testCommand := opts.defaultTestCommand
              allowedTestCommands := opts.allowedTestCommands }).testCommand = true
      · rw [if_pos hal] at h
        exact absurd h (by simp)
      · rw [if_neg hal] at h
        injection h with h2
        subst h2
        simp only [not_not] at hal
        exact ⟨hal, rfl⟩

/-- Sandbox options whose allowlist does not contain the default test
command. -/
def badCommandOpts : DockerSandboxOptions :=
  { image := "node:22-bookworm-slim", repoRoot := "/srv/repos"
    allowedTestCommands := ["npm test"], defaultTestCommand := "rm -rf /" }

/-- A snapshot with no `okaydokki.yaml`, so the fallback runtime config is
used. -/
def snapshotOnlyFs : RepoFs :=
  { snapshotExists := true, configFileExists := false, configContent := "" }

/-- Closed witness for `sandbox_fails_closed_on_disallowed_command`: a
disallowed resolved command makes `runValidation` throw before any
container start. -/
theorem sandbox_fails_closed_witness :
    ∃ e, DockerSandbox.runValidation badCommandOpts snapshotOnlyFs "org/name" "/tmp/cand"
      = .error e :=
  sandbox_fails_closed_on_disallowed_command.1 badCommandOpts snapshotOnlyFs "org/name"
    "/tmp/cand" (by decide)
